import Mathlib

/-!
Verification of the incremental Google Drive synchronization engine of the
school-admin Telegram bot (sources: school_admin_bot/main.py, drive_sync.py,
webhook_handler.py, database.py).

The Python code is shallowly embedded: database tables become lists of rows in
a `DbState` record; every Database method used by the sync engine becomes a
pure state transformer translated from its SQL; the sync passes become folds
over file lists; external services (Drive API, LLM extraction, UTF-8 decoding)
become oracle functions carried in an environment record.  Fallible calls are
modelled with `Option` and `Except`.  Dates and timestamps are plain naturals.
-/

set_option maxHeartbeats 4000000

/-! ## Generic string and list helpers used by the embedding -/

/-- `listStartsWith l p` is true when `p` is an initial segment of `l`. -/
def listStartsWith : List Char → List Char → Bool
  | _, [] => true
  | [], _ :: _ => false
  | a :: as, b :: bs => a == b && listStartsWith as bs

/-- `containsSeq needle hay` : does `needle` occur contiguously inside `hay`?
Models the Python `needle in hay` substring test. -/
def containsSeq (needle : List Char) : List Char → Bool
  | [] => needle.isEmpty
  | c :: rest => listStartsWith (c :: rest) needle || containsSeq needle rest

/-- Substring test on strings, models Python `sub in s`. -/
def strContains (s sub : String) : Bool :=
  containsSeq sub.data s.data

/-- ASCII lower-casing, models Python `str.lower()` for the ASCII names used
by the bot. -/
def strLower (s : String) : String :=
  String.mk (s.data.map Char.toLower)

/-- The last `n` characters of a character list. -/
def lastChars (n : Nat) (cs : List Char) : List Char :=
  cs.drop (cs.length - n)

/-- All but the last `n` characters of a character list. -/
def dropLastChars (n : Nat) (cs : List Char) : List Char :=
  cs.take (cs.length - n)

/-- Case-insensitive test that a filename ends in `.pdf`; models Python
`filename.lower().endswith(".pdf")` and the regex tail `\.pdf$` with
`re.IGNORECASE`. -/
def endsWithPdfCI (cs : List Char) : Bool :=
  match lastChars 4 cs with
  | [d, p1, p2, p3] =>
      4 ≤ cs.length && d == '.' && p1.toLower == 'p' && p2.toLower == 'd' &&
        p3.toLower == 'f'
  | _ => false

/-- The `\d` character class of the filename regex: code points 48-57,
exactly `Char.isDigit` spelled through `Char.toNat`. -/
def isDigitChar (c : Char) : Bool :=
  48 ≤ c.toNat && c.toNat ≤ 57

/-- Maximal digit prefix of a character list, returned with the remainder. -/
def splitDigitRun : List Char → List Char × List Char
  | [] => ([], [])
  | c :: cs =>
    if isDigitChar c then
      let (r, rest) := splitDigitRun cs
      (c :: r, rest)
    else ([], c :: cs)

/-- Numeric value of a digit character. -/
def digitVal (c : Char) : Nat := c.toNat - '0'.toNat

/-- Numeric value of a digit string, models Python `int(...)` on a digit-only
string (leading zeros allowed). -/
def listVal (cs : List Char) : Nat :=
  cs.foldl (fun n c => 10 * n + digitVal c) 0

/-- The distinguished scheduled-event folder name used throughout main.py
(written with an escaped apostrophe). -/
def todaysEventName : String := "Today\x27s Event"

/-! ## Data model (database.py `init_database` tables used by the sync engine) -/

/-- The JSONB `content` payload written for a Drive-synced entry
(main.py lines 1720-1731, webhook_handler.py lines 424-432). -/
structure EntryContent where
  ftype : String
  file_name : String
  extracted_text : String
  source : String
  folder : String
  drive_folder_id : Option String
  drive_file_id : Option String
  event_name : Option String
deriving DecidableEq, Repr

/-- A row of the `daily_entries` table. -/
structure DailyEntry where
  day : Nat
  tag : String
  content : EntryContent
  uploaded_by : Int
  timestamp : Nat
deriving DecidableEq, Repr

/-- A row of the `drive_sync_log` table. -/
structure SyncLog where
  folder_id : Nat
  day : Nat
  files_synced : Nat
  files_processed : Nat
  errors : Option String
  synced_by : Int
  synced_at : Nat
deriving DecidableEq, Repr

/-- A row of the `drive_folders` table. -/
structure DriveFolder where
  id : Nat
  folder_name : String
  drive_folder_id : String
  parent_folder_id : Option String
  last_synced_at : Option Nat
deriving DecidableEq, Repr

/-- A row of the `drive_webhooks` table. -/
structure WebhookRow where
  folder_id : String
  channel_id : String
  resource_id : String
  webhook_url : String
  page_token : Option String
  active : Bool
  expires_at : Option Nat
deriving DecidableEq, Repr

/-- A row of the `shortcut_targets` table. -/
structure ShortcutRow where
  shortcut_id : String
  shortcut_name : String
  target_file_id : String
  target_file_name : String
  watched_folder_id : String
deriving DecidableEq, Repr

/-- The database state visible to the synchronization engine. -/
structure DbState where
  daily_entries : List DailyEntry
  sync_logs : List SyncLog
  folders : List DriveFolder
  folder_role_access : List (Nat × String)
  webhooks : List WebhookRow
  shortcut_targets : List ShortcutRow
deriving DecidableEq, Repr

/-! ## Database operations (database.py) -/

/-- `Database.add_entry` (database.py lines 372-389): insert a new
daily entry for `today`. -/
def add_entry (st : DbState) (uploadedBy : Int) (tag : String)
    (content : EntryContent) (today now : Nat) : DbState :=
  { st with daily_entries :=
      st.daily_entries ++ [⟨today, tag, content, uploadedBy, now⟩] }

/-- Does entry `e` carry upsert key `(day, fid)`? -/
def entryKeyed (day : Nat) (fid : String) (e : DailyEntry) : Bool :=
  e.day == day && e.content.drive_file_id == some fid

/-- In-place update applied to the rows matching the upsert key. -/
def upsertTouch (today : Nat) (fid : String) (content : EntryContent)
    (now : Nat) (e : DailyEntry) : DailyEntry :=
  if entryKeyed today fid e then { e with content := content, timestamp := now }
  else e

/-- Worker for the day-scoped upsert on the `daily_entries` rows. -/
def upsertEntries (rows : List DailyEntry) (uploadedBy : Int) (tag : String)
    (content : EntryContent) (today now : Nat) : List DailyEntry :=
  match content.drive_file_id with
  | none => rows ++ [⟨today, tag, content, uploadedBy, now⟩]
  | some fid =>
    if rows.any (entryKeyed today fid) then
      rows.map (upsertTouch today fid content now)
    else rows ++ [⟨today, tag, content, uploadedBy, now⟩]

/-- Modelled from the spec: `Database.add_or_update_drive_entry` is invoked by
all three sync paths (main.py lines 1732 and 3113, webhook_handler.py line
434) but its definition is not present under src, only its callers and their
comments are.  Spec section 4.5: "Upsert key is `(day, sourceFileId)` when
present: if a row exists, its content/timestamp are updated in place;
otherwise a new row is inserted."  Entries without a source file id are plain
inserts. -/
def add_or_update_drive_entry (st : DbState) (uploadedBy : Int) (tag : String)
    (content : EntryContent) (today now : Nat) : DbState :=
  { st with daily_entries :=
      upsertEntries st.daily_entries uploadedBy tag content today now }

/-- `Database.get_folder_by_drive_id` (database.py lines 944-962). -/
def get_folder_by_drive_id (st : DbState) (driveFolderId : String) :
    Option DriveFolder :=
  st.folders.find? (fun f => f.drive_folder_id == driveFolderId)

/-- `Database.get_folder_by_name` (database.py lines 924-942). -/
def get_folder_by_name (st : DbState) (folderName : String) :
    Option DriveFolder :=
  st.folders.find? (fun f => f.folder_name == folderName)

/-- Role list of `Database.get_folder_with_roles` (database.py lines
1057-1065): the `folder_role_access` rows of a folder. -/
def folderRolesOf (st : DbState) (folderId : Nat) : List String :=
  (st.folder_role_access.filter (fun p => p.1 == folderId)).map (fun p => p.2)

/-- `Database.update_folder_sync_time` (database.py lines 1072-1086). -/
def update_folder_sync_time (st : DbState) (folderId : Nat) (now : Nat) :
    DbState :=
  { st with folders := st.folders.map (fun f =>
      if f.id == folderId then { f with last_synced_at := some now } else f) }

/-- `Database.log_sync` (database.py lines 1088-1106): append one sync-log
row for today. -/
def log_sync (st : DbState) (folderId : Nat) (day filesSynced filesProcessed : Nat)
    (errors : Option String) (syncedBy : Int) (now : Nat) : DbState :=
  { st with sync_logs :=
      st.sync_logs ++ [⟨folderId, day, filesSynced, filesProcessed, errors, syncedBy, now⟩] }

/-- `Database.save_webhook` (database.py lines 1150-1175): insert a webhook
row, or on a `channel_id` conflict update `resource_id`, `page_token`,
`expires_at` and re-activate; `folder_id` and `webhook_url` are not updated. -/
def save_webhook (st : DbState) (folderId channelId resourceId webhookUrl : String)
    (pageToken : Option String) (expiresAt : Option Nat) : DbState :=
  if st.webhooks.any (fun w => w.channel_id == channelId) then
    { st with webhooks := st.webhooks.map (fun w =>
        if w.channel_id == channelId then
          { w with resource_id := resourceId, page_token := pageToken,
                   expires_at := expiresAt, active := true }
        else w) }
  else
    { st with webhooks := st.webhooks ++
        [⟨folderId, channelId, resourceId, webhookUrl, pageToken, true, expiresAt⟩] }

/-- `Database.update_webhook_page_token` (database.py lines 1199-1213). -/
def update_webhook_page_token (st : DbState) (channelId pageToken : String) :
    DbState :=
  { st with webhooks := st.webhooks.map (fun w =>
      if w.channel_id == channelId then { w with page_token := some pageToken }
      else w) }

/-- `Database.deactivate_webhook` (database.py lines 1215-1229). -/
def deactivate_webhook (st : DbState) (channelId : String) : DbState :=
  { st with webhooks := st.webhooks.map (fun w =>
      if w.channel_id == channelId then { w with active := false } else w) }

/-- `Database.get_all_active_webhooks` (database.py lines 1231-1248). -/
def get_all_active_webhooks (st : DbState) : List WebhookRow :=
  st.webhooks.filter (fun w => w.active)

/-- `Database.save_shortcut_target` (database.py lines 1252-1275): upsert on
`(shortcut_id, target_file_id)`. -/
def save_shortcut_target (st : DbState)
    (shortcutId shortcutName targetFileId targetFileName watchedFolderId : String) :
    DbState :=
  if st.shortcut_targets.any
      (fun s => s.shortcut_id == shortcutId && s.target_file_id == targetFileId) then
    { st with shortcut_targets := st.shortcut_targets.map (fun s =>
        if s.shortcut_id == shortcutId && s.target_file_id == targetFileId then
          { s with shortcut_name := shortcutName, target_file_name := targetFileName }
        else s) }
  else
    { st with shortcut_targets := st.shortcut_targets ++
        [⟨shortcutId, shortcutName, targetFileId, targetFileName, watchedFolderId⟩] }

/-- `Database.get_shortcut_by_target` (database.py lines 1297-1316). -/
def get_shortcut_by_target (st : DbState) (targetFileId : String) :
    Option ShortcutRow :=
  st.shortcut_targets.find? (fun s => s.target_file_id == targetFileId)

/-! ## Drive metadata oracle and the bounded parent-chain walks -/

/-- Metadata of one Drive node as returned by `service.files().get` with
fields `id, name, parents`. -/
structure FileMeta where
  name : String
  parents : List String
deriving DecidableEq, Repr

/-- The Drive metadata service: `none` models an `HttpError` (or missing
node) raised by `service.files().get`. -/
def Metadata : Type := String → Option FileMeta

/-- One upward hop in the parent chain: the first listed parent of `id`,
if the metadata lookup succeeds and any parent is listed. -/
def chainStep (meta : Metadata) (id : String) : Option String :=
  (meta id).bind (fun fm => fm.parents.head?)

/-- The node reached after `k` upward hops starting at `id`. -/
def chainPos (meta : Metadata) : Nat → String → Option String
  | 0, id => some id
  | k + 1, id =>
    match chainStep meta id with
    | none => none
    | some p => chainPos meta k p

/-- Loop body of `DriveSync.get_file_folder_path` (drive_sync.py lines
145-174): walk the parent chain for at most `fuel` iterations, keeping the
visited path; on reaching `rootId` return the name of the last visited node
(the top-level folder), else `none`. -/
def getFileFolderPathLoop (meta : Metadata) (rootId : String) :
    String → List String → Nat → Option String
  | _, _, 0 => none
  | cur, path, fuel + 1 =>
    if cur == rootId then
      match path.getLast? with
      | some last => (meta last).map (fun fm => fm.name)
      | none => none
    else
      match meta cur with
      | none => none
      | some info =>
        match info.parents.head? with
        | none => none
        | some p => getFileFolderPathLoop meta rootId p (path ++ [cur]) fuel

/-- `DriveSync.get_file_folder_path` (drive_sync.py lines 125-178): resolve
the top-level folder name of a file relative to `rootId`, walking at most
`max_depth = 10` parents; any metadata failure yields `none`. -/
def get_file_folder_path (meta : Metadata) (fileId rootId : String) :
    Option String :=
  match meta fileId with
  | none => none
  | some fm =>
    match fm.parents.head? with
    | none => none
    | some p => getFileFolderPathLoop meta rootId p [] 10

/-- Loop of the subfolder membership check in
`process_drive_changes` (webhook_handler.py lines 256-275): starting from the
metadata of a file's immediate parent, look for `folderId` among the current
node's parents, walking upward at most `max_depth = 10` times; a metadata
failure means the change is skipped, modelled as `false`. -/
def inWatchedTreeLoop (meta : Metadata) (folderId : String) :
    FileMeta → Nat → Bool
  | _, 0 => false
  | cur, fuel + 1 =>
    if cur.parents.contains folderId then true
    else
      match cur.parents.head? with
      | none => false
      | some p =>
        match meta p with
        | none => false
        | some fm => inWatchedTreeLoop meta folderId fm fuel

/-- Subtree membership of a changed file given its `parents` list
(webhook_handler.py lines 246-275). -/
def inWatchedTree (meta : Metadata) (folderId : String)
    (parents : List String) : Bool :=
  match parents.head? with
  | none => false
  | some pid =>
    match meta pid with
    | none => false
    | some pinfo => inWatchedTreeLoop meta folderId pinfo 10

/-- The metadata node reached after `k` hops starting FROM the metadata of
node `pid` (used to state the bound of the webhook walk). -/
def nodeChain (meta : Metadata) : Nat → String → Option FileMeta
  | 0, pid => meta pid
  | k + 1, pid =>
    match (meta pid).bind (fun fm => fm.parents.head?) with
    | none => none
    | some p => nodeChain meta k p

/-! ## drive_sync.py: category detection -/

/-- `DriveSync.detect_file_category` (drive_sync.py lines 331-366). -/
def detect_file_category (fileName folderName : String) : String :=
  let fl := strLower fileName
  let dl := strLower folderName
  if strContains dl "relief" then "RELIEF"
  else if strContains dl "absent" then "ABSENT"
  else if strContains dl "event" || strContains dl "bulletin" then "EVENT"
  else if strContains dl "venue" || strContains dl "room" then "VENUE_CHANGE"
  else if strContains dl "duty" || strContains dl "roster" then "DUTY_ROSTER"
  else if strContains dl "student" || strContains dl "movement" then "GENERAL"
  else if strContains fl "relief" then "RELIEF"
  else if strContains fl "absent" then "ABSENT"
  else if strContains fl "event" then "EVENT"
  else if strContains fl "venue" then "VENUE_CHANGE"
  else if strContains fl "duty" || strContains fl "roster" then "DUTY_ROSTER"
  else "GENERAL"

/-! ## main.py: role-based access filtering -/

/-- `_is_student_movement_entry` (main.py lines 2059-2071): an entry whose
tag is STUDENT_MOVEMENT or whose content folder names Student Movement. -/
def isStudentMovementEntry (e : DailyEntry) : Bool :=
  e.tag == "STUDENT_MOVEMENT" ||
    (e.content.folder != "" && strContains e.content.folder "Student Movement")

/-- Visibility of one entry for a non-superadmin, non-student_admin role
(the per-entry loop of `_filter_entries_by_folder_access`, main.py lines
2104-2156).  An absent or empty `drive_folder_id` (Python falsiness) and a
folder that is missing from the database or has no configured roles all fall
back to the `relief_member`/`admin` default; the distinguished scheduled-event
folder is visible to everyone; otherwise membership of the configured role
list decides. -/
def entryVisible (st : DbState) (userRole : String) (e : DailyEntry) : Bool :=
  let dfid := e.content.drive_folder_id.getD ""
  if dfid == "" then userRole == "relief_member" || userRole == "admin"
  else
    match get_folder_by_drive_id st dfid with
    | none => userRole == "relief_member" || userRole == "admin"
    | some folder =>
      if folder.folder_name == todaysEventName then true
      else
        let roles := folderRolesOf st folder.id
        if roles.isEmpty then userRole == "relief_member" || userRole == "admin"
        else roles.contains userRole

/-- `_filter_entries_by_folder_access` (main.py lines 2073-2159). -/
def filter_entries_by_folder_access (st : DbState) (entries : List DailyEntry)
    (userRole : String) : List DailyEntry :=
  if entries.isEmpty then entries
  else if userRole == "superadmin" then entries
  else if userRole == "student_admin" then entries.filter isStudentMovementEntry
  else entries.filter (entryVisible st userRole)

/-! ## main.py: the scheduled-event filename-date filter -/

/-- A calendar date as produced by `get_singapore_now().date()`. -/
structure SgDate where
  year : Nat
  month : Nat
  day : Nat
deriving DecidableEq, Repr

/-- Shared shape parser for `dd_mm_y+_title.pdf` filenames: two digits,
underscore, two digits, underscore, a maximal digit run, underscore, then a
nonempty newline-free title followed by `.pdf` (case-insensitive).  This is
the common core of the `_is_todays_event_pdf` regex
`^(\d{2})_(\d{2})_(\d{2,4})_(.+)\.pdf$` (main.py line 2993); neither the
regex's 2-4 bound on the year run nor the spec's 2-or-4 digit year is
enforced here, the callers impose their own bound on the returned run. -/
def eventNameParse : List Char →
    Option (List Char × List Char × List Char × List Char)
  | d1 :: d2 :: u1 :: m1 :: m2 :: u2 :: rest =>
    if isDigitChar d1 && isDigitChar d2 && u1 == '_' && isDigitChar m1 &&
        isDigitChar m2 && u2 == '_' then
      match (splitDigitRun rest).2 with
      | '_' :: tail =>
        let title := dropLastChars 4 tail
        if endsWithPdfCI tail && !title.isEmpty && title.all (fun c => c != '\n')
        then some ([d1, d2], [m1, m2], (splitDigitRun rest).1, title)
        else none
      | _ => none
    else none
  | _ => none

/-- Year encoded by a digit run: two digits mean `2000 + yy`, otherwise the
digits are the year (main.py lines 3000-3003). -/
def runYear (run : List Char) : Nat :=
  if run.length == 2 then 2000 + listVal run else listVal run

/-- Event title normalization (main.py line 3006):
`eventname.strip(UNDERSCORE).replace(UNDERSCORE, SPACE)`. -/
def eventTitleClean (title : List Char) : String :=
  let stripped := ((title.dropWhile (fun c => c == '_')).reverse.dropWhile
      (fun c => c == '_')).reverse
  String.mk (stripped.map (fun c => if c == '_' then ' ' else c))

/-- `_is_todays_event_pdf` (main.py lines 2984-3009): matches
`dd_mm_yy_eventname.pdf` or `dd_mm_yyyy_eventname.pdf` (the regex also
admits a 3-digit year run) whose embedded date equals today; returns the
match flag together with the cleaned event name. -/
def is_todays_event_pdf (filename : String) (today : SgDate) :
    Bool × Option String :=
  match eventNameParse filename.data with
  | none => (false, none)
  | some (dd, mm, run, title) =>
    let flag := 2 ≤ run.length && run.length ≤ 4 &&
        listVal dd == today.day && listVal mm == today.month &&
        runYear run == today.year
    (flag, if flag then some (eventTitleClean title) else none)

/-- The spec-side inclusion predicate for the scheduled-event filter, written
from the spec's words: "the name must match `DD_MM_YY_<title>` (or 4-digit
year) and the embedded date must equal the local current date" (spec sections
4.4 and 8).  It differs from the code only in admitting exactly 2- or
4-digit years. -/
def spec_event_included (filename : String) (today : SgDate) : Bool :=
  match eventNameParse filename.data with
  | none => false
  | some (dd, mm, run, _) =>
    (run.length == 2 || run.length == 4) &&
      listVal dd == today.day && listVal mm == today.month &&
      runYear run == today.year

/-! ## main.py: the on-demand / scheduled sync pass over one folder -/

/-- A file listed by `DriveSync.list_files_in_folder`. -/
structure DriveFile where
  id : Option String
  name : String
  mimeType : String
  parents : List String
deriving DecidableEq, Repr

/-- File bytes. -/
def FileBytes : Type := List Nat

/-- The `%PDF` magic prefix checked at main.py line 1710. -/
def pdfMagic : List Nat := [37, 80, 68, 70]

/-- External collaborators of a sync pass: the Drive download/export call
(`DriveSync.get_file_content`, `none` models a failed download), the two LLM
extraction calls (`analyze_image` / `analyze_pdf`, whose exceptions are the
`Except.error` case), UTF-8 decoding (`none` models `UnicodeDecodeError`) with
its total latin-1 fallback, the folder listing and the current date. -/
structure SyncEnv where
  today : Nat
  eventDate : SgDate
  files : List DriveFile
  download : DriveFile → Option FileBytes
  analyzeImage : FileBytes → String → Except String String
  analyzePdf : FileBytes → String → Except String String
  decodeUtf8 : FileBytes → Option String
  decodeLatin1 : FileBytes → String

/-- Outcome of the per-file body of the sync loop. -/
inductive FileOutcome where
  | downloadFailed : FileOutcome
  | errored : String → FileOutcome
  | ok : String → EntryContent → FileOutcome
deriving DecidableEq, Repr

/-- Candidate files of a pass (main.py lines 1645-1664): the folder listing,
restricted under the distinguished scheduled-event folder to PDFs whose
filename date is today. -/
def passFiles (env : SyncEnv) (folder : DriveFolder) : List DriveFile :=
  if folder.folder_name == todaysEventName then
    env.files.filter (fun f => (is_todays_event_pdf f.name env.eventDate).1)
  else env.files

/-- Text extraction routing of the sync pass (main.py lines 1682-1717):
image mime kinds go to vision extraction, PDFs (by mime or name) to PDF
extraction, spreadsheets and text decode as UTF-8 falling back to latin-1,
and anything else is sniffed for a `%PDF` magic, then decoded as UTF-8,
with a binary placeholder as last resort. -/
def extractText (env : SyncEnv) (f : DriveFile) (bytes : FileBytes)
    (category : String) : Except String (String × String) :=
  if listStartsWith f.mimeType.data "image/".data then
    (env.analyzeImage bytes category).map (fun t => (t, "photo"))
  else if f.mimeType == "application/pdf" || endsWithPdfCI f.name.data then
    (env.analyzePdf bytes category).map (fun t => (t, "document"))
  else if f.mimeType == "application/vnd.google-apps.spreadsheet" then
    match env.decodeUtf8 bytes with
    | some t => Except.ok (t, "document")
    | none => Except.ok (env.decodeLatin1 bytes, "document")
  else if listStartsWith f.mimeType.data "text/".data then
    match env.decodeUtf8 bytes with
    | some t => Except.ok (t, "document")
    | none => Except.ok (env.decodeLatin1 bytes, "document")
  else if bytes.take 4 == pdfMagic then
    (env.analyzePdf bytes category).map (fun t => (t, "document"))
  else
    match env.decodeUtf8 bytes with
    | some t => Except.ok (t, "document")
    | none => Except.ok ("[Binary file: " ++ f.name ++ "]", "document")

/-- The per-file body of the on-demand sync loop (main.py lines 1669-1739):
download, classify, extract, and build the `content_data` payload; a failed
download and a raised extraction exception are reported as outcomes that the
loop records in the error list. -/
def processFile (env : SyncEnv) (folder : DriveFolder) (f : DriveFile) :
    FileOutcome :=
  match env.download f with
  | none => FileOutcome.downloadFailed
  | some bytes =>
    let category := detect_file_category f.name folder.folder_name
    match extractText env f bytes category with
    | Except.error m => FileOutcome.errored m
    | Except.ok (text, ftype) =>
      let en := (is_todays_event_pdf f.name env.eventDate).2
      FileOutcome.ok category
        { ftype := ftype
          file_name := f.name
          extracted_text := text
          source := "google_drive"
          folder := folder.folder_name
          drive_folder_id := some folder.drive_folder_id
          drive_file_id := f.id
          event_name :=
            if folder.folder_name == todaysEventName && en.getD "" != "" then en
            else none }

/-- The upsert guard of main.py lines 1731-1734: a truthy `drive_file_id`
routes through the day-scoped upsert, otherwise a plain insert. -/
def ingestContent (st : DbState) (uploadedBy : Int) (tag : String)
    (content : EntryContent) (today now : Nat) : DbState :=
  if content.drive_file_id.getD "" != "" then
    add_or_update_drive_entry st uploadedBy tag content today now
  else add_entry st uploadedBy tag content today now

/-- One step of the sync loop fold, carrying
`(files_processed_count, errors, database)`. -/
def syncStep (env : SyncEnv) (folder : DriveFolder) (uploadedBy : Int) (now : Nat)
    (acc : Nat × List String × DbState) (f : DriveFile) :
    Nat × List String × DbState :=
  match processFile env folder f with
  | FileOutcome.downloadFailed =>
    (acc.1, acc.2.1 ++ [f.name ++ ": Failed to download"], acc.2.2)
  | FileOutcome.errored m =>
    (acc.1, acc.2.1 ++ [f.name ++ ": " ++ m], acc.2.2)
  | FileOutcome.ok tag c =>
    (acc.1 + 1, acc.2.1, ingestContent acc.2.2 uploadedBy tag c env.today now)

/-- The error column written to the sync log: the last ten errors joined by
semicolons (main.py line 1745). -/
def errorColumn (errs : List String) : Option String :=
  if errs.isEmpty then none
  else some (String.intercalate "; " (errs.drop (errs.length - 10)))

/-- The per-folder body of `sync_drive` (main.py lines 1637-1755): filter the
candidate files, run the per-file loop accumulating counts and errors without
aborting, then update the folder sync time and append exactly one sync-log
row.  An empty candidate list makes the folder be skipped (`continue`). -/
def syncFolderPass (env : SyncEnv) (folder : DriveFolder) (uploadedBy : Int)
    (now : Nat) (st : DbState) : DbState :=
  let files := passFiles env folder
  if files.isEmpty then st
  else
    let r := files.foldl (syncStep env folder uploadedBy now) (0, [], st)
    let st2 := update_folder_sync_time r.2.2 folder.id now
    log_sync st2 folder.id env.today files.length r.1 (errorColumn r.2.1)
      uploadedBy now

/-- Rows of the `daily_entries` table carrying upsert key `(day, fid)`. -/
def keyRows (st : DbState) (day : Nat) (fid : String) : List DailyEntry :=
  st.daily_entries.filter (entryKeyed day fid)

/-- Number of `daily_entries` rows with upsert key `(day, fid)`. -/
def keyCount (st : DbState) (day : Nat) (fid : String) : Nat :=
  (keyRows st day fid).length

/-! ## webhook_handler.py: the notification endpoint -/

/-- Result of the POST branch of `handle_drive_webhook`: the HTTP status
and, when a detached background sync was spawned, the channel id it was
keyed off. -/
structure WebhookResponse where
  statusCode : Nat
  spawned : Option (Option String)
deriving DecidableEq, Repr

/-- POST branch of `handle_drive_webhook` (webhook_handler.py lines 56-108).
`parseOk` is the outcome of `request.get_json()` (false models a raised
exception, handled by the `except` clause that returns status 500);
`resourceState` and `channelId` are the `X-Goog-Resource-State` and
`X-Goog-Channel-Id` headers; `instancesSet` is whether the bot and
drive-sync module globals were injected.  The background thread itself is
never awaited, so its outcome cannot influence the returned status. -/
def handleDriveWebhookPost (parseOk : Bool) (resourceState channelId : Option String)
    (instancesSet : Bool) : WebhookResponse :=
  if !parseOk then ⟨500, none⟩
  else if resourceState == some "sync" then ⟨200, none⟩
  else if resourceState == some "update" || resourceState == some "change" then
    ⟨200, if instancesSet then some channelId else none⟩
  else if resourceState == some "trash" then ⟨200, none⟩
  else ⟨200, none⟩

/-! ## webhook_handler.py: the notification-triggered sync pass -/

/-- The `file` sub-object of one Drive change. -/
structure ChangeFile where
  name : String
  mimeType : String
  parents : List String
deriving DecidableEq, Repr

/-- One element of the change feed page. -/
structure DriveChange where
  fileId : Option String
  file : Option ChangeFile
deriving DecidableEq, Repr

/-- A candidate file assembled by `process_drive_changes`
(webhook_handler.py lines 237-284); `shortcut_info` mirrors the
`_shortcut_info` key read at line 342, which no reachable code ever sets. -/
structure SyncFile where
  id : Option String
  name : String
  mimeType : String
  parents : List String
  in_subfolder : Bool
  shortcut_info : Option (String × String)
deriving DecidableEq, Repr

/-- Environment of the webhook-triggered path: the change fetch
(`DriveSync.get_changes`, returning the page of changes and the
`newStartPageToken`), the metadata service used by the subfolder walk, the
download call, the optionally injected analysis functions
(`analyze_image_func` / `analyze_pdf_func`, None until
`set_analysis_functions` runs), decoding, and the system sync user
(`SUPER_ADMIN_IDS[0]` when the bot instance is available). -/
structure WebhookEnv where
  today : Nat
  getChanges : Option String → List DriveChange × Option String
  meta : Metadata
  download : SyncFile → Option FileBytes
  analyzeImage : Option (FileBytes → String → Except String String)
  analyzePdf : Option (FileBytes → String → Except String String)
  decodeUtf8 : FileBytes → Option String
  decodeLatin1 : FileBytes → String
  syncUserId : Option Int

/-- The mime kinds auto-synced by the webhook path (webhook_handler.py lines
221-233). -/
def autoSyncKind (name mimeType : String) : Bool :=
  let isDocOrSheet :=
    mimeType == "application/vnd.google-apps.document" ||
    mimeType == "application/vnd.google-apps.spreadsheet" ||
    mimeType == "application/vnd.google-apps.presentation" ||
    mimeType == "application/pdf" ||
    mimeType == "application/vnd.google-apps.shortcut"
  let isPdf := mimeType == "application/pdf" || (name != "" && endsWithPdfCI name.data)
  let isImage := listStartsWith mimeType.data "image/".data
  isDocOrSheet || isPdf || isImage

/-- Candidate assembly of `process_drive_changes` (webhook_handler.py lines
204-298): keep non-folder changes of an auto-synced mime kind that are
directly in the watched folder (or are it), else that resolve into the
watched subtree through the bounded parent walk.  The shortcut re-attribution
alternative at lines 287-298 is a second `else:` on an `if` that already has
one (a syntax error); it is unreachable under any parse of the function and
is therefore absent from the model, which is why the assembled candidates
never consult the `shortcut_targets` table. -/
def buildFilesToSync (meta : Metadata) (folderId : String)
    (changes : List DriveChange) : List SyncFile :=
  changes.foldl (fun acc change =>
    match change.file with
    | none => acc
    | some info =>
      if info.mimeType == "application/vnd.google-apps.folder" then acc
      else if !autoSyncKind info.name info.mimeType then acc
      else if info.parents.contains folderId || change.fileId == some folderId then
        acc ++ [⟨change.fileId, info.name, info.mimeType, info.parents, false, none⟩]
      else if !info.parents.isEmpty then
        if inWatchedTree meta folderId info.parents then
          acc ++ [⟨change.fileId, info.name, info.mimeType, info.parents, true, none⟩]
        else acc
      else acc) []

/-- Actions of the notification-triggered pass, in execution order; `ingest`
covers the download + extraction + upsert of one changed file and
`fileError` a failed download or a raised per-file exception, i.e. the ways
a fetched change is acted upon. -/
inductive SyncAction where
  | fetch : Option String → SyncAction
  | ingest : Option String → SyncAction
  | fileError : String → SyncAction
  | savedShortcut : String → SyncAction
  | syncTimeUpdated : Nat → SyncAction
  | logWritten : Nat → SyncAction
  | persistToken : String → String → SyncAction
deriving DecidableEq, Repr

/-- Is this action one of the ways a fetched change is acted upon
(downloaded, extracted, or upserted)? -/
def isActing : SyncAction → Bool
  | SyncAction.ingest _ => true
  | SyncAction.fileError _ => true
  | _ => false

/-- Is this action the durable persistence of the next change cursor? -/
def isPersist : SyncAction → Bool
  | SyncAction.persistToken _ _ => true
  | _ => false

/-- Extraction routing of `sync_changed_files` (webhook_handler.py lines
363-401): like the on-demand pass but with optional analysis functions whose
absence yields a placeholder string. -/
def webhookExtract (env : WebhookEnv) (f : SyncFile) (bytes : FileBytes)
    (category : String) : Except String (String × String) :=
  if listStartsWith f.mimeType.data "image/".data then
    match env.analyzeImage with
    | some fn => (fn bytes category).map (fun t => (t, "photo"))
    | none => Except.ok ("[Image: " ++ f.name ++ "]", "photo")
  else if f.mimeType == "application/pdf" || endsWithPdfCI f.name.data then
    match env.analyzePdf with
    | some fn => (fn bytes category).map (fun t => (t, "document"))
    | none => Except.ok ("[PDF: " ++ f.name ++ "]", "document")
  else if f.mimeType == "application/vnd.google-apps.spreadsheet" then
    match env.decodeUtf8 bytes with
    | some t => Except.ok (t, "document")
    | none => Except.ok (env.decodeLatin1 bytes, "document")
  else if listStartsWith f.mimeType.data "text/".data then
    match env.decodeUtf8 bytes with
    | some t => Except.ok (t, "document")
    | none => Except.ok (env.decodeLatin1 bytes, "document")
  else if bytes.take 4 == pdfMagic then
    match env.analyzePdf with
    | some fn => (fn bytes category).map (fun t => (t, "document"))
    | none => Except.ok ("[PDF: " ++ f.name ++ "]", "document")
  else
    match env.decodeUtf8 bytes with
    | some t => Except.ok (t, "document")
    | none => Except.ok ("[Binary file: " ++ f.name ++ "]", "document")

/-- Subfolder attribution of `sync_changed_files` (webhook_handler.py lines
403-420): for a file found through the subtree walk, display the subfolder
name and, when the subfolder is registered, use its row for access control;
a metadata failure keeps the root attribution. -/
def effectiveAttribution (env : WebhookEnv) (st : DbState)
    (folder : DriveFolder) (f : SyncFile) : String × DriveFolder :=
  if f.in_subfolder && !f.parents.isEmpty then
    match f.parents.head? with
    | none => (folder.folder_name, folder)
    | some pid =>
      match env.meta pid with
      | none => (folder.folder_name, folder)
      | some pinfo =>
        let nm := folder.folder_name ++ "/" ++ pinfo.name
        match get_folder_by_drive_id st pid with
        | some sub => (nm, sub)
        | none => (nm, folder)
  else (folder.folder_name, folder)

/-- The per-file body of `sync_changed_files` (webhook_handler.py lines
353-435): download, classify, extract, attribute, and build `content_data`
with the webhook source tag; the payload always carries `drive_file_id` and
is always written through the day-scoped upsert (line 434 has no guard). -/
def webhookProcessFile (env : WebhookEnv) (st : DbState) (folder : DriveFolder)
    (f : SyncFile) : FileOutcome :=
  match env.download f with
  | none => FileOutcome.downloadFailed
  | some bytes =>
    let category := detect_file_category f.name folder.folder_name
    match webhookExtract env f bytes category with
    | Except.error m => FileOutcome.errored m
    | Except.ok (text, ftype) =>
      let attr := effectiveAttribution env st folder f
      FileOutcome.ok category
        { ftype := ftype
          file_name := f.name
          extracted_text := text
          source := "google_drive_webhook"
          folder := attr.1
          drive_folder_id := some attr.2.drive_folder_id
          drive_file_id := f.id
          event_name := none }

/-- The shortcut-binding persistence prelude of the loop body
(webhook_handler.py lines 340-351): a shortcut-typed file records its target
binding, but only when `_shortcut_info` was attached, which no reachable
code does. -/
def shortcutPrelude (folder : DriveFolder) (f : SyncFile)
    (tr : List SyncAction) (st : DbState) : List SyncAction × DbState :=
  if f.mimeType == "application/vnd.google-apps.shortcut" then
    match f.shortcut_info with
    | some (targetId, targetName) =>
      (tr ++ [SyncAction.savedShortcut (f.id.getD "")],
       save_shortcut_target st (f.id.getD "") f.name targetId targetName
         folder.drive_folder_id)
    | none => (tr, st)
  else (tr, st)

/-- One step of the `sync_changed_files` loop, carrying the action trace,
the processed count, the error list and the database. -/
def webhookSyncStep (env : WebhookEnv) (folder : DriveFolder) (uploadedBy : Int)
    (now : Nat) (acc : List SyncAction × Nat × List String × DbState)
    (f : SyncFile) : List SyncAction × Nat × List String × DbState :=
  let pre := shortcutPrelude folder f acc.1 acc.2.2.2
  match webhookProcessFile env pre.2 folder f with
  | FileOutcome.downloadFailed =>
    (pre.1 ++ [SyncAction.fileError (f.name ++ ": Failed to download")], acc.2.1,
     acc.2.2.1 ++ [f.name ++ ": Failed to download"], pre.2)
  | FileOutcome.errored m =>
    (pre.1 ++ [SyncAction.fileError (f.name ++ ": " ++ m)], acc.2.1,
     acc.2.2.1 ++ [f.name ++ ": " ++ m], pre.2)
  | FileOutcome.ok tag c =>
    (pre.1 ++ [SyncAction.ingest f.id], acc.2.1 + 1, acc.2.2.1,
     add_or_update_drive_entry pre.2 uploadedBy tag c env.today now)

/-- `sync_changed_files` (webhook_handler.py lines 332-452): process each
changed file, then update the folder sync time and append one sync-log row;
returns the action trace together with the final database. -/
def sync_changed_files (env : WebhookEnv) (files : List SyncFile)
    (folder : DriveFolder) (syncUserId : Int) (now : Nat) (st : DbState) :
    List SyncAction × DbState :=
  let r := files.foldl (webhookSyncStep env folder syncUserId now) ([], 0, [], st)
  let st2 := update_folder_sync_time r.2.2.2 folder.id now
  let st3 := log_sync st2 folder.id env.today files.length r.2.1
      (errorColumn r.2.2.1) syncUserId now
  (r.1 ++ [SyncAction.syncTimeUpdated folder.id, SyncAction.logWritten folder.id],
   st3)

/-- `process_drive_changes` (webhook_handler.py lines 162-317): look up the
webhook row by channel id, fetch the change page from the stored cursor,
bail out on an empty page or an unregistered folder, assemble and sync the
candidate files, and only then persist the returned `newStartPageToken` to
the webhook row (lines 312-314 run after `sync_changed_files` at line 310). -/
def process_drive_changes (env : WebhookEnv) (st : DbState) (channelId : String) :
    List SyncAction × DbState :=
  match (get_all_active_webhooks st).find? (fun w => w.channel_id == channelId) with
  | none => ([], st)
  | some wh =>
    let cr := env.getChanges wh.page_token
    let tr0 := [SyncAction.fetch wh.page_token]
    if cr.1.isEmpty then (tr0, st)
    else
      match get_folder_by_drive_id st wh.folder_id with
      | none => (tr0, st)
      | some folder =>
        let files := buildFilesToSync env.meta wh.folder_id cr.1
        let r :=
          if !files.isEmpty then
            match env.syncUserId with
            | some uid => sync_changed_files env files folder uid env.today st
            | none => ([], st)
          else ([], st)
        match cr.2 with
        | some t =>
          (tr0 ++ r.1 ++ [SyncAction.persistToken channelId t],
           update_webhook_page_token r.2 channelId t)
        | none => (tr0 ++ r.1, r.2)

/-- The ordering the claim asserts: in the trace of a notification-triggered
pass, the cursor persistence must come before the first action on a fetched
change (vacuously true when nothing is acted upon). -/
def persistedBeforeActing : List SyncAction → Bool
  | [] => true
  | a :: rest =>
    if isActing a then false
    else if isPersist a then true
    else persistedBeforeActing rest

/-- The ordering the code implements: after the cursor persistence no
fetched change is acted upon anymore. -/
def noActingAfterPersist : List SyncAction → Bool
  | [] => true
  | a :: rest =>
    (if isPersist a then rest.all (fun b => !isActing b) else true) &&
      noActingAfterPersist rest

/-! ## Subscription renewal sweep

The Database layer (save_webhook / deactivate_webhook /
get_all_active_webhooks, database.py lines 1150-1248) is translated above;
the sweep that drives it is not present under src, so it is modelled from
spec section 4.2. -/

/-- A channel returned by the external store when registering a
push-notification subscription. -/
structure ChannelGrant where
  channelId : String
  resourceId : String
  expiresAt : Nat
deriving DecidableEq, Repr

/-- The renewal window of spec section 4.2: subscriptions expiring in less
than 24 hours are renewed (time unit: hours). -/
def renewWindow : Nat := 24

/-- Is this subscription due for renewal at time `now`? -/
def isExpiring (now : Nat) (w : WebhookRow) : Bool :=
  match w.expires_at with
  | none => false
  | some e => e < now + renewWindow

/-- The active subscriptions due for renewal at `now`. -/
def expiringList (st : DbState) (now : Nat) : List WebhookRow :=
  (get_all_active_webhooks st).filter (isExpiring now)

/-- Modelled from the spec: one renewal of section 4.2 `renewExpiring` —
"stops the old channel (best-effort; failure to stop does not block
renewal), registers a new channel reusing the same cursor value, persists
the new row as active, marks the old row inactive.  ...  if renewal fails,
the old subscription is left active."  `register` is the external channel
registration; `none` models its failure. -/
def renewOne (register : String → Option ChannelGrant) (w : WebhookRow)
    (st : DbState) : DbState :=
  match register w.folder_id with
  | none => st
  | some g =>
    deactivate_webhook
      (save_webhook st w.folder_id g.channelId g.resourceId w.webhook_url
        w.page_token (some g.expiresAt))
      w.channel_id

/-- The database states a single renewal passes through: after persisting
the new row, and after deactivating the old one. -/
def renewOneStates (register : String → Option ChannelGrant) (w : WebhookRow)
    (st : DbState) : List DbState :=
  match register w.folder_id with
  | none => [st]
  | some g =>
    let s1 := save_webhook st w.folder_id g.channelId g.resourceId
        w.webhook_url w.page_token (some g.expiresAt)
    [s1, deactivate_webhook s1 w.channel_id]

/-- Fold of the sweep over a list of due subscriptions, collecting every
intermediate database state. -/
def sweepGo (register : String → Option ChannelGrant) :
    List WebhookRow → DbState → List DbState × DbState
  | [], st => ([], st)
  | w :: rest, st =>
    let tr := renewOneStates register w st
    let st' := renewOne register w st
    let r := sweepGo register rest st'
    (tr ++ r.1, r.2)

/-- Modelled from the spec: the renewal sweep of section 4.2, scanning the
active subscriptions and renewing every one expiring within the window. -/
def renewExpiring (register : String → Option ChannelGrant) (now : Nat)
    (st : DbState) : DbState :=
  (sweepGo register (expiringList st now) st).2

/-- All database states the sweep reaches, starting state included. -/
def renewSweepStates (register : String → Option ChannelGrant) (now : Nat)
    (st : DbState) : List DbState :=
  st :: (sweepGo register (expiringList st now) st).1

/-- The `active = TRUE` rows of one external folder id. -/
def activeRowsFor (st : DbState) (folderId : String) : List WebhookRow :=
  st.webhooks.filter (fun w => w.active && w.folder_id == folderId)

/-- Does the folder have at least one live subscription row? -/
def hasLiveSub (st : DbState) (folderId : String) : Bool :=
  st.webhooks.any (fun w => w.active && w.folder_id == folderId)

/-- The channel ids present in the webhook table. -/
def channelsOf (st : DbState) : List String :=
  st.webhooks.map (fun w => w.channel_id)

/-! ## Derived predicates used by the theorems -/

/-- The upsert key `(day, fid)` owns exactly the single row `(content, now)`:
the shape left behind by a successful ingestion of that file. -/
def KeyRowIs (st : DbState) (day : Nat) (fid : String) (content : EntryContent)
    (now : Nat) : Prop :=
  (keyRows st day fid).map (fun e => (e.content, e.timestamp)) = [(content, now)]

/-- At most one `active = TRUE` webhook row per external folder id, phrased
through the table's `channel_id` uniqueness: two live rows of one folder are
the same channel. -/
def AtMostOneActivePerFolder (st : DbState) : Prop :=
  ∀ r1 ∈ st.webhooks, ∀ r2 ∈ st.webhooks,
    r1.active = true → r2.active = true → r1.folder_id = r2.folder_id →
      r1.channel_id = r2.channel_id

/-- Invariant carried through the renewal sweep over the still-unprocessed
suffix `remaining` of the due-subscription list. -/
structure SweepInv (register : String → Option ChannelGrant)
    (remaining : List WebhookRow) (s : DbState) : Prop where
  atMost : AtMostOneActivePerFolder s
  nodupCh : (channelsOf s).Nodup
  liveRow : ∀ w ∈ remaining, ∃ r ∈ s.webhooks,
    r.channel_id = w.channel_id ∧ r.active = true ∧ r.folder_id = w.folder_id
  fresh : ∀ w ∈ remaining, ∀ g, register w.folder_id = some g →
    ∀ r ∈ s.webhooks, g.channelId ≠ r.channel_id
  foldersNodup : (remaining.map (fun w => w.folder_id)).Nodup

/-- The renewed channel is live with the reused cursor. -/
def NewRowLive (st : DbState) (channelId folderId : String)
    (pageToken : Option String) : Prop :=
  ∃ r ∈ st.webhooks, r.channel_id = channelId ∧ r.folder_id = folderId ∧
    r.active = true ∧ r.page_token = pageToken

/-- Every row of the superseded channel is inactive. -/
def OldRowDead (st : DbState) (channelId : String) : Prop :=
  ∀ r ∈ st.webhooks, r.channel_id = channelId → r.active = false

/-! ## Concrete instances used by counterexamples and witnesses -/

/-- A registered copy of the distinguished scheduled-event folder. -/
def cFolderTE : DriveFolder := ⟨1, todaysEventName, "FTE", none, none⟩

/-- Content of an entry synced out of the scheduled-event folder. -/
def cContentTE : EntryContent :=
  ⟨"document", "flyer.pdf", "sports day flyer", "google_drive", todaysEventName,
    some "FTE", some "x1", none⟩

/-- An entry attributed to the scheduled-event folder. -/
def cEntryTE : DailyEntry := ⟨7, "EVENT", cContentTE, 9, 0⟩

/-- Database in which the scheduled-event folder is configured with the role
set `{admin}`. -/
def cStAccess : DbState := ⟨[], [], [cFolderTE], [(1, "admin")], [], []⟩

/-- An ordinary registered folder. -/
def cFolderStaff : DriveFolder := ⟨2, "Staff Docs", "FS", none, none⟩

/-- Content of an entry synced out of the ordinary folder. -/
def cContentStaff : EntryContent :=
  ⟨"document", "roster.pdf", "duty roster", "google_drive", "Staff Docs",
    some "FS", some "x2", none⟩

/-- An entry attributed to the ordinary folder. -/
def cEntryStaff : DailyEntry := ⟨7, "DUTY_ROSTER", cContentStaff, 9, 0⟩

/-- Database in which the ordinary folder is configured with roles `{admin}`. -/
def cStStaff : DbState := ⟨[], [], [cFolderStaff], [(2, "admin")], [], []⟩

/-- The watched folder row used by the webhook scenarios. -/
def cFolderDocs : DriveFolder := ⟨1, "Docs", "F", none, none⟩

/-- An active webhook row on folder `F` with a stored cursor. -/
def cWebhookRow : WebhookRow := ⟨"F", "ch1", "r1", "u", some "t0", true, some 100⟩

/-- A change naming a PDF directly inside the watched folder. -/
def cChangeDirect : DriveChange :=
  ⟨some "X", some ⟨"a.pdf", "application/pdf", ["F"]⟩⟩

/-- Webhook environment delivering one direct change and a next cursor. -/
def cEnvW : WebhookEnv :=
  { today := 5
    getChanges := fun _ => ([cChangeDirect], some "t1")
    meta := fun _ => none
    download := fun _ => some pdfMagic
    analyzeImage := none
    analyzePdf := some (fun _ _ => Except.ok "pdf text")
    decodeUtf8 := fun _ => some "txt"
    decodeLatin1 := fun _ => "txt"
    syncUserId := some 9 }

/-- Database for the webhook scenarios. -/
def cStW : DbState := ⟨[], [], [cFolderDocs], [], [cWebhookRow], []⟩

/-- A persisted shortcut binding: shortcut `S1` in watched folder `F` points
at target file `X`. -/
def cShortcutRow : ShortcutRow := ⟨"S1", "sc", "X", "xt", "F"⟩

/-- Database holding the shortcut binding. -/
def cStShortcut : DbState := ⟨[], [], [cFolderDocs], [], [cWebhookRow], [cShortcutRow]⟩

/-- A change naming the shortcut target `X`, whose own parent lies outside
the watched folder. -/
def cChangeTarget : DriveChange :=
  ⟨some "X", some ⟨"x.pdf", "application/pdf", ["E"]⟩⟩

/-- Webhook environment delivering only the change to the shortcut target. -/
def cEnvShortcut : WebhookEnv :=
  { cEnvW with getChanges := fun _ => ([cChangeTarget], some "t1") }

/-- A change naming the shortcut object itself, directly in the folder. -/
def cChangeShortcut : DriveChange :=
  ⟨some "S1", some ⟨"sc", "application/vnd.google-apps.shortcut", ["F"]⟩⟩

/-- The candidate the webhook path assembles for the shortcut change. -/
def cShortcutFile : SyncFile :=
  ⟨some "S1", "sc", "application/vnd.google-apps.shortcut", ["F"], false, none⟩

/-- An active subscription on folder `F` expiring within the renewal window. -/
def cWhExpiring : WebhookRow := ⟨"F", "chOld", "r1", "u", some "t0", true, some 10⟩

/-- Database holding only the expiring subscription. -/
def cStRenew : DbState := ⟨[], [], [], [], [cWhExpiring], []⟩

/-- A registration oracle granting a fresh channel for folder `F`. -/
def cRegister : String → Option ChannelGrant :=
  fun f => if f == "F" then some ⟨"chNew", "r2", 1000⟩ else none

/-- Cyclic Drive metadata: `f` hangs under `A`, and `A` and `B` are each
the other's parent. -/
def cycMeta : Metadata := fun id =>
  if id == "f" then some ⟨"file", ["A"]⟩
  else if id == "A" then some ⟨"a", ["B"]⟩
  else if id == "B" then some ⟨"b", ["A"]⟩
  else none

/-- First hop of the `get_file_folder_path` walk: the first listed parent of
the file, when its metadata is available. -/
def fileChainStart (meta : Metadata) (fileId : String) : Option String :=
  (meta fileId).bind (fun fm => fm.parents.head?)

/-- Executable statement that the ten-step upward walk from the file's first
parent never reaches the watched root. -/
def boundedWalkMisses (meta : Metadata) (fileId rootId : String) : Bool :=
  match fileChainStart meta fileId with
  | none => true
  | some start =>
    (List.range 10).all (fun k => chainPos meta k start != some rootId)

/-- Executable statement that the ten metadata nodes inspected by the webhook
subtree walk never list the watched folder among their parents. -/
def boundedTreeMisses (meta : Metadata) (folderId : String)
    (parents : List String) : Bool :=
  match parents.head? with
  | none => true
  | some pid =>
    (List.range 10).all (fun k =>
      match nodeChain meta k pid with
      | none => true
      | some fm => !(fm.parents.contains folderId))

/-- The local date of the running examples. -/
def cSgDate : SgDate := ⟨2025, 3, 5⟩

/-- Plain text files used by the pass scenarios. -/
def cFileA : DriveFile := ⟨some "a", "alpha.txt", "text/plain", []⟩

/-- The file whose download fails in the error-isolation scenario. -/
def cFileB : DriveFile := ⟨some "b", "beta.txt", "text/plain", []⟩

/-- The third file of the error-isolation scenario. -/
def cFileC : DriveFile := ⟨some "c", "gamma.txt", "text/plain", []⟩

/-- Sync environment over files A, B, C in which only B fails to download. -/
def cEnvABC : SyncEnv :=
  { today := 7
    eventDate := cSgDate
    files := [cFileA, cFileB, cFileC]
    download := fun f => if f.id == some "b" then none else some [104, 105]
    analyzeImage := fun _ _ => Except.ok "img"
    analyzePdf := fun _ _ => Except.ok "pdf"
    decodeUtf8 := fun _ => some "hi"
    decodeLatin1 := fun _ => "hi" }

/-- Sync environment listing only file A. -/
def cEnvOne : SyncEnv := { cEnvABC with files := [cFileA] }

/-- The content payload a successful ingestion of file A produces. -/
def cContentA : EntryContent :=
  ⟨"document", "alpha.txt", "hi", "google_drive", "Staff Docs", some "FS",
    some "a", none⟩

/-- The content payload a successful ingestion of file C produces. -/
def cContentC : EntryContent :=
  ⟨"document", "gamma.txt", "hi", "google_drive", "Staff Docs", some "FS",
    some "c", none⟩

/-- Database with only the ordinary folder registered and no entries. -/
def cStEmpty : DbState := ⟨[], [], [cFolderStaff], [], [], []⟩

/-- A scheduled-event flyer listed under the scheduled-event folder. -/
def cEventFile : DriveFile :=
  ⟨some "e1", "05_03_2025_SportsDay.pdf", "application/pdf", []⟩

/-- Sync environment listing only the flyer. -/
def cEnvEvent : SyncEnv := { cEnvABC with files := [cEventFile] }

/-- The channel granted to folder `F` by `cRegister`. -/
def cGrant : ChannelGrant := ⟨"chNew", "r2", 1000⟩

/-- A webhook candidate for file A used in the webhook idempotence scenario. -/
def cWFileA : SyncFile := ⟨some "a", "alpha.txt", "text/plain", ["F"], false, none⟩

/-- Webhook environment used by the webhook idempotence scenario. -/
def cEnvWOne : WebhookEnv :=
  { today := 7
    getChanges := fun _ => ([], none)
    meta := fun _ => none
    download := fun _ => some [104, 105]
    analyzeImage := none
    analyzePdf := none
    decodeUtf8 := fun _ => some "hi"
    decodeLatin1 := fun _ => "hi"
    syncUserId := some 9 }

/-- The content payload the webhook ingestion of file A produces. -/
def cWContentA : EntryContent :=
  ⟨"document", "alpha.txt", "hi", "google_drive_webhook", "Docs", some "F",
    some "a", none⟩

/-- Executable check that some webhook row carries the renewed channel:
channel id `ch`, folder `fid`, active, and the reused cursor `pt`. -/
def RowLiveFields (s : DbState) (ch fid : String) (pt : Option String) : Bool :=
  s.webhooks.any (fun r =>
    r.channel_id == ch && (r.folder_id == fid && (r.active && r.page_token == pt)))

/-- Executable check that every row of channel `ch` is inactive. -/
def ChannelDead (s : DbState) (ch : String) : Bool :=
  s.webhooks.all (fun r => !(r.channel_id == ch) || r.active == false)

/-- Number of webhook rows carrying channel id `ch`. -/
def chCount (s : DbState) (ch : String) : Nat :=
  s.webhooks.countP (fun r => r.channel_id == ch)

/-! # Theorems -/

/-! ## C10: bounded subtree walk -/

theorem getFileFolderPathLoop_none (meta : Metadata) (rootId : String) :
    ∀ (fuel : Nat) (cur : String) (path : List String),
      (∀ k, k < fuel → chainPos meta k cur ≠ some rootId) →
      getFileFolderPathLoop meta rootId cur path fuel = none := by
  intro fuel
  induction fuel with
  | zero => intro cur path _; rfl
  | succ n ih =>
    intro cur path h
    have h0 : cur ≠ rootId := by
      have := h 0 (Nat.succ_pos n)
      simpa [chainPos] using this
    have hcur : (cur == rootId) = false := by
      simpa using h0
    rw [getFileFolderPathLoop]
    rw [hcur]
    simp only [Bool.false_eq_true, if_false]
    cases hm : meta cur with
    | none => simp
    | some info =>
      cases hp : info.parents.head? with
      | none => simp [hp]
      | some p =>
        simp only [hp]
        apply ih
        intro k hk
        have h2 := h (k + 1) (Nat.succ_lt_succ hk)
        simpa [chainPos, chainStep, hm, hp] using h2

theorem inWatchedTreeLoop_false (meta : Metadata) (folderId : String) :
    ∀ (fuel : Nat) (pid : String) (cur : FileMeta), meta pid = some cur →
      (∀ k, k < fuel → ∀ fm, nodeChain meta k pid = some fm →
        fm.parents.contains folderId = false) →
      inWatchedTreeLoop meta folderId cur fuel = false := by
  intro fuel
  induction fuel with
  | zero => intro pid cur _ _; rfl
  | succ n ih =>
    intro pid cur hm h
    have h0 : cur.parents.contains folderId = false := by
      apply h 0 (Nat.succ_pos n)
      simpa [nodeChain] using hm
    rw [inWatchedTreeLoop]
    rw [h0]
    simp only [Bool.false_eq_true, if_false]
    cases hp : cur.parents.head? with
    | none => simp
    | some p =>
      cases hmp : meta p with
      | none => simp [hmp]
      | some fm =>
        simp only [hmp]
        apply ih p fm hmp
        intro k hk fm' hc
        apply h (k + 1) (Nat.succ_lt_succ hk)
        simpa [nodeChain, hm, hp] using hc

/-- Claim C10: the watched-subtree membership checks terminate on every
input (they are total Lean functions); whenever the bounded upward walk of
ten steps does not reach the watched root (`get_file_folder_path`) or never
sees the watched folder among the inspected parents (the webhook walk), the
checks return the negative result `none` / `false` instead of looping —
including on cyclic or malformed parent metadata. -/
theorem claim10_bounded_subtree_walk (meta : Metadata)
    (fileId rootId folderId : String) (parents : List String)
    (h1 : boundedWalkMisses meta fileId rootId = true)
    (h2 : boundedTreeMisses meta folderId parents = true) :
    get_file_folder_path meta fileId rootId = none ∧
      inWatchedTree meta folderId parents = false := by
  constructor
  · rw [get_file_folder_path]
    cases hm : meta fileId with
    | none => simp
    | some fm =>
      cases hp : fm.parents.head? with
      | none => simp [hp]
      | some p =>
        simp only [hp]
        apply getFileFolderPathLoop_none
        intro k hk hcp
        rw [boundedWalkMisses] at h1
        have hstart : fileChainStart meta fileId = some p := by
          simp [fileChainStart, hm, hp]
        rw [hstart] at h1
        rw [List.all_eq_true] at h1
        have := h1 k (List.mem_range.mpr hk)
        simp only [bne_iff_ne, ne_eq] at this
        exact this hcp
  · rw [inWatchedTree]
    cases hh : parents.head? with
    | none => simp
    | some pid =>
      cases hm : meta pid with
      | none => simp [hm]
      | some pinfo =>
        simp only [hm]
        apply inWatchedTreeLoop_false meta folderId 10 pid pinfo hm
        intro k hk fm hc
        rw [boundedTreeMisses] at h2
        rw [hh] at h2
        rw [List.all_eq_true] at h2
        have := h2 k (List.mem_range.mpr hk)
        rw [hc] at this
        simpa using this

/-- Witness for C10 on concrete cyclic metadata: the walk hits the
`A`-`B` cycle, exhausts its depth bound, and returns negatively. -/
theorem claim10_witness :
    boundedWalkMisses cycMeta "f" "R" = true ∧
      boundedTreeMisses cycMeta "R" ["A"] = true ∧
      get_file_folder_path cycMeta "f" "R" = none ∧
      inWatchedTree cycMeta "R" ["A"] = false := by
  refine ⟨by decide, by decide, ?_, ?_⟩
  · exact (claim10_bounded_subtree_walk cycMeta "f" "R" "R" ["A"] (by decide)
      (by decide)).1
  · exact (claim10_bounded_subtree_walk cycMeta "f" "R" "R" ["A"] (by decide)
      (by decide)).2

/-! ## C8: notification endpoint protocol -/

/-- Counterexample to C8 as stated: the POST handler wraps its body in a
try/except whose handler returns status 500 (webhook_handler.py lines
106-108), so an inbound POST notification whose JSON body read raises — for
instance an unparseable body — is answered with 500, not 200, whatever the
resource-state header says. -/
theorem claim8_counterexample_exception_returns_500 :
    (handleDriveWebhookPost false (some "update") (some "chan-9") true).statusCode
      = 500 := by
  rfl

/-- Claim C8 (amended): for every inbound POST notification whose in-handler
body read does not raise, the endpoint returns status 200 whatever the
resource-state header (sync, update/change, trash, or unknown) and whatever
the outcome of any background work (the spawned worker is detached and never
awaited); a sync state is acknowledged only, update/change spawns a detached
background sync keyed off the channel id when the bot instances are wired,
and trash is acknowledged and ignored.  An exception while reading the
notification is answered with 500. -/
theorem claim8_amended_notification_endpoint
    (resourceState channelId : Option String) (instancesSet : Bool) :
    (handleDriveWebhookPost true resourceState channelId instancesSet).statusCode
        = 200 ∧
      (resourceState = some "sync" →
        (handleDriveWebhookPost true resourceState channelId instancesSet).spawned
          = none) ∧
      ((resourceState = some "update" ∨ resourceState = some "change") →
        instancesSet = true →
        (handleDriveWebhookPost true resourceState channelId instancesSet).spawned
          = some channelId) ∧
      (resourceState = some "trash" →
        (handleDriveWebhookPost true resourceState channelId instancesSet).spawned
          = none) := by
  refine ⟨?_, ?_, ?_, ?_⟩
  · rw [handleDriveWebhookPost]
    split
    · simp at *
    · split
      · rfl
      · split
        · rfl
        · split
          · rfl
          · rfl
  · intro hs
    subst hs
    rfl
  · intro hu hi
    subst hi
    rcases hu with hu | hu <;> subst hu <;> rfl
  · intro ht
    subst ht
    rfl

/-- Witness for C8 (amended) at a concrete update notification. -/
theorem claim8_witness :
    (handleDriveWebhookPost true (some "update") (some "chan-9") true).statusCode
        = 200 ∧
      (handleDriveWebhookPost true (some "update") (some "chan-9") true).spawned
        = some (some "chan-9") ∧
      (handleDriveWebhookPost true (some "sync") (some "chan-9") true).spawned
        = none ∧
      (handleDriveWebhookPost true (some "trash") (some "chan-9") true).spawned
        = none := by
  refine ⟨?_, ?_, ?_, ?_⟩
  · exact (claim8_amended_notification_endpoint (some "update") (some "chan-9")
      true).1
  · exact (claim8_amended_notification_endpoint (some "update") (some "chan-9")
      true).2.2.1 (Or.inl rfl) rfl
  · exact (claim8_amended_notification_endpoint (some "sync") (some "chan-9")
      true).2.1 rfl
  · exact (claim8_amended_notification_endpoint (some "trash") (some "chan-9")
      true).2.2.2 rfl

/-! ## C4 and C9: role-based access filtering -/

theorem entryVisible_of_roles (st : DbState) (e : DailyEntry) (fid : String)
    (folder : DriveFolder) (role : String)
    (hfid : e.content.drive_folder_id = some fid) (hne : fid ≠ "")
    (hlook : get_folder_by_drive_id st fid = some folder)
    (hnotTE : folder.folder_name ≠ todaysEventName)
    (hnonempty : (folderRolesOf st folder.id).isEmpty = false) :
    entryVisible st role e = (folderRolesOf st folder.id).contains role := by
  rw [entryVisible]
  have h1 : (e.content.drive_folder_id.getD "" == "") = false := by
    rw [hfid]
    simpa using hne
  rw [hfid] at h1 ⊢
  simp only [Option.getD_some] at h1 ⊢
  rw [h1]
  simp only [Bool.false_eq_true, if_false]
  rw [hlook]
  have h2 : (folder.folder_name == todaysEventName) = false := by
    simpa using hnotTE
  simp only [h2, Bool.false_eq_true, if_false, hnonempty]

/-- Counterexample to C4 as stated: an entry whose owning folder is the
distinguished scheduled-event folder configured with the role set `{admin}`
is still returned for the requesting role `viewer`, because the folder-name
check at main.py line 2136 runs before the configured-role check at lines
2142-2156; the claim's universal "omits it when the requesting role is
viewer" is false for that folder. -/
theorem claim4_counterexample_public_folder_visible_to_viewer :
    folderRolesOf cStAccess cFolderTE.id = ["admin"] ∧
      get_folder_by_drive_id cStAccess "FTE" = some cFolderTE ∧
      filter_entries_by_folder_access cStAccess [cEntryTE] "viewer"
        = [cEntryTE] := by
  refine ⟨by decide, by decide, by decide⟩

/-- Claim C4 (amended): for every entry whose owning folder has the
configured role set `{admin}` and is not the distinguished scheduled-event
folder, filtering the day's entries returns the entry when the requesting
role is admin, omits it when the requesting role is viewer, and returns it
unconditionally when the requesting role is superadmin; an entry owned by
the distinguished folder itself is visible to viewer as well. -/
theorem claim4_amended_role_filtering (st : DbState) (e : DailyEntry)
    (fid : String) (folder : DriveFolder)
    (hfid : e.content.drive_folder_id = some fid) (hne : fid ≠ "")
    (hlook : get_folder_by_drive_id st fid = some folder)
    (hnotTE : folder.folder_name ≠ todaysEventName)
    (hroles : folderRolesOf st folder.id = ["admin"]) :
    filter_entries_by_folder_access st [e] "admin" = [e] ∧
      filter_entries_by_folder_access st [e] "viewer" = [] ∧
      filter_entries_by_folder_access st [e] "superadmin" = [e] := by
  have hvis : ∀ role, entryVisible st role e = (["admin"] : List String).contains role := by
    intro role
    rw [entryVisible_of_roles st e fid folder role hfid hne hlook hnotTE]
    · rw [hroles]
    · rw [hroles]
      rfl
  refine ⟨?_, ?_, ?_⟩
  · have h1 : ("admin" == "superadmin") = false := by decide
    have h2 : ("admin" == "student_admin") = false := by decide
    rw [filter_entries_by_folder_access]
    simp only [List.isEmpty_cons, h1, h2, Bool.false_eq_true, if_false]
    simp [List.filter, hvis "admin"]
  · have h1 : ("viewer" == "superadmin") = false := by decide
    have h2 : ("viewer" == "student_admin") = false := by decide
    rw [filter_entries_by_folder_access]
    simp only [List.isEmpty_cons, h1, h2, Bool.false_eq_true, if_false]
    simp [List.filter, hvis "viewer"]
  · rw [filter_entries_by_folder_access]
    simp

/-- Witness for C4 (amended) on the concrete ordinary folder configured
with `{admin}`. -/
theorem claim4_witness :
    filter_entries_by_folder_access cStStaff [cEntryStaff] "admin"
        = [cEntryStaff] ∧
      filter_entries_by_folder_access cStStaff [cEntryStaff] "viewer" = [] ∧
      filter_entries_by_folder_access cStStaff [cEntryStaff] "superadmin"
        = [cEntryStaff] :=
  claim4_amended_role_filtering cStStaff cEntryStaff "FS" cFolderStaff
    (by decide) (by decide) (by decide) (by decide) (by decide)

/-- Counterexample to C9 as stated: for the role `student_admin` the filter
keeps only Student Movement entries (main.py lines 2090-2093), so an entry
attributed to the distinguished scheduled-event folder is dropped for that
role even though the claim quantifies over every role. -/
theorem claim9_counterexample_student_admin_excluded :
    get_folder_by_drive_id cStAccess "FTE" = some cFolderTE ∧
      cFolderTE.folder_name = todaysEventName ∧
      filter_entries_by_folder_access cStAccess [cEntryTE] "student_admin"
        = [] := by
  refine ⟨by decide, by decide, by decide⟩

/-- Claim C9 (amended): for every role other than student_admin (which sees
only Student Movement entries) and every entry attributed to the
distinguished scheduled-event folder, access filtering returns the entry;
for those roles its visibility is unconditional and independent of any
configured folder role rules. -/
theorem claim9_amended_public_category_visibility (st : DbState)
    (entries : List DailyEntry) (e : DailyEntry) (role fid : String)
    (folder : DriveFolder)
    (hrole : role ≠ "student_admin") (he : e ∈ entries)
    (hfid : e.content.drive_folder_id = some fid) (hne : fid ≠ "")
    (hlook : get_folder_by_drive_id st fid = some folder)
    (hTE : folder.folder_name = todaysEventName) :
    e ∈ filter_entries_by_folder_access st entries role := by
  rw [filter_entries_by_folder_access]
  have hne0 : entries.isEmpty = false := by
    cases entries with
    | nil => cases he
    | cons a l => rfl
  rw [hne0]
  simp only [Bool.false_eq_true, if_false]
  by_cases hsup : (role == "superadmin") = true
  · rw [if_pos hsup]
    exact he
  · rw [if_neg hsup]
    have hstu : (role == "student_admin") = false := by
      simpa using hrole
    rw [hstu]
    simp only [Bool.false_eq_true, if_false]
    apply List.mem_filter.mpr
    refine ⟨he, ?_⟩
    rw [entryVisible]
    rw [hfid]
    simp only [Option.getD_some]
    have h1 : (fid == "") = false := by simpa using hne
    rw [h1]
    simp only [Bool.false_eq_true, if_false]
    rw [hlook]
    have h2 : (folder.folder_name == todaysEventName) = true := by
      simpa using hTE
    simp [h2]

/-- Witness for C9 (amended): a viewer sees the scheduled-event entry even
though the folder is configured with `{admin}`. -/
theorem claim9_witness :
    cEntryTE ∈ filter_entries_by_folder_access cStAccess [cEntryTE] "viewer" :=
  claim9_amended_public_category_visibility cStAccess [cEntryTE] cEntryTE
    "viewer" "FTE" cFolderTE (by decide) (by decide) (by decide) (by decide)
    (by decide) (by decide)

/-! ## C5: scheduled-event filename-date filter -/

theorem eventNameParse_cons (d1 d2 u1 m1 m2 u2 : Char) (rest : List Char) :
    eventNameParse (d1 :: d2 :: u1 :: m1 :: m2 :: u2 :: rest) =
      (if isDigitChar d1 && isDigitChar d2 && u1 == '_' && isDigitChar m1 &&
          isDigitChar m2 && u2 == '_' then
        match (splitDigitRun rest).2 with
        | '_' :: tail =>
          let title := dropLastChars 4 tail
          if endsWithPdfCI tail && !title.isEmpty && title.all (fun c => c != '\n')
          then some ([d1, d2], [m1, m2], (splitDigitRun rest).1, title)
          else none
        | _ => none
      else none) := rfl

theorem splitDigitRun_fst_digits :
    ∀ cs : List Char, ∀ c ∈ (splitDigitRun cs).1, isDigitChar c = true := by
  intro cs
  induction cs with
  | nil => intro c hc; simp [splitDigitRun] at hc
  | cons a l ih =>
    intro c hc
    by_cases ha : isDigitChar a = true
    · rw [splitDigitRun, ha] at hc
      simp only [if_true] at hc
      rcases hsp : splitDigitRun l with ⟨r, rest⟩
      rw [hsp] at hc
      simp only [List.mem_cons] at hc
      rcases hc with rfl | hc
      · exact ha
      · exact ih c (by rw [hsp]; exact hc)
    · rw [splitDigitRun] at hc
      rw [Bool.not_eq_true] at ha
      rw [ha] at hc
      simp at hc

theorem listVal_aux_lt :
    ∀ (cs : List Char) (acc : Nat), (∀ c ∈ cs, isDigitChar c = true) →
      cs.foldl (fun n c => 10 * n + digitVal c) acc < (acc + 1) * 10 ^ cs.length := by
  intro cs
  induction cs with
  | nil =>
    intro acc _
    simp only [List.foldl_nil, List.length_nil, pow_zero, Nat.mul_one]
    exact Nat.lt_succ_self acc
  | cons c l ih =>
    intro acc h
    have hc : digitVal c ≤ 9 := by
      have hd := h c (List.mem_cons_self c l)
      rw [isDigitChar, Bool.and_eq_true, decide_eq_true_eq, decide_eq_true_eq] at hd
      rw [digitVal]
      have h48 : Char.toNat '0' = 48 := rfl
      rw [h48]
      omega
    rw [List.foldl_cons]
    have hrec := ih (10 * acc + digitVal c)
      (fun c' hc' => h c' (List.mem_cons_of_mem _ hc'))
    have hstep : (10 * acc + digitVal c + 1) * 10 ^ l.length ≤
        (acc + 1) * 10 ^ (c :: l).length := by
      rw [List.length_cons, pow_succ]
      have h1 : 10 * acc + digitVal c + 1 ≤ (acc + 1) * 10 := by omega
      calc (10 * acc + digitVal c + 1) * 10 ^ l.length
          ≤ ((acc + 1) * 10) * 10 ^ l.length := Nat.mul_le_mul_right _ h1
        _ = (acc + 1) * (10 ^ l.length * 10) := by ring
    exact lt_of_lt_of_le hrec hstep

theorem listVal_lt (cs : List Char) (h : ∀ c ∈ cs, isDigitChar c = true) :
    listVal cs < 10 ^ cs.length := by
  have := listVal_aux_lt cs 0 h
  simpa [listVal] using this

theorem eventNameParse_run_digits (cs dd mm run title : List Char)
    (h : eventNameParse cs = some (dd, mm, run, title)) :
    ∀ c ∈ run, isDigitChar c = true := by
  rcases cs with _ | ⟨d1, _ | ⟨d2, _ | ⟨u1, _ | ⟨m1, _ | ⟨m2, _ | ⟨u2, rest⟩⟩⟩⟩⟩⟩ <;>
    try simp [eventNameParse] at h
  obtain ⟨hguard, h⟩ := h
  rcases hsp : splitDigitRun rest with ⟨r, rest2⟩
  simp only [hsp] at h
  split at h
  · split at h
    · rw [Option.some_inj] at h
      simp only [Prod.mk.injEq] at h
      obtain ⟨h1, h2, h3, h4⟩ := h
      subst h3
      intro c hc
      exact splitDigitRun_fst_digits rest c (by rw [hsp]; exact hc)
    · exact absurd h (by simp)
  · exact absurd h (by simp)

theorem runYear_three_ne (run : List Char) (today : SgDate)
    (hlen : run.length = 3) (hdig : ∀ c ∈ run, isDigitChar c = true)
    (hy : 1000 ≤ today.year) : (runYear run == today.year) = false := by
  have hlt : listVal run < 1000 := by
    have h := listVal_lt run hdig
    rw [hlen] at h
    norm_num at h
    exact h
  rw [runYear, hlen]
  norm_num
  omega

theorem lengthCond_eq (run : List Char) (today : SgDate) (C D : Bool)
    (hy : 1000 ≤ today.year) (hdig : ∀ c ∈ run, isDigitChar c = true) :
    (decide (2 ≤ run.length) && decide (run.length ≤ 4) && C && D &&
        (runYear run == today.year))
      = ((run.length == 2 || run.length == 4) && C && D &&
        (runYear run == today.year)) := by
  by_cases h2 : run.length = 2
  · simp [h2]
  · by_cases h4 : run.length = 4
    · simp [h4]
    · by_cases h3 : run.length = 3
      · have hE := runYear_three_ne run today h3 hdig hy
        simp [h3, hE]
      · have hb2 : (run.length == 2) = false := by simpa using h2
        have hb4 : (run.length == 4) = false := by simpa using h4
        rcases Nat.lt_or_ge run.length 2 with hlt | hge
        · have hd2 : decide (2 ≤ run.length) = false :=
            decide_eq_false (by omega)
          simp [hd2, hb2, hb4]
        · have hd4 : decide (run.length ≤ 4) = false :=
            decide_eq_false (by omega)
          simp [hd4, hb2, hb4]

/-- Claim C5: a file under the distinguished scheduled-event folder is
included in a sync pass if and only if it is listed there and its name
matches `DD_MM_YY_<title>` (or with a 4-digit year) with the embedded date
equal to the local current date — for any current date with a four-digit
year, which makes the regex's stray 3-digit-year match unreachable; in
particular `05_03_2025_SportsDay.pdf` is matched exactly when the local date
is 2025-03-05 and on no other date. -/
theorem claim5_scheduled_event_filename_filter (name : String) (today : SgDate)
    (env : SyncEnv) (folder : DriveFolder) (f : DriveFile)
    (hy : 1000 ≤ today.year)
    (hfolder : folder.folder_name = todaysEventName) :
    (is_todays_event_pdf name today).1 = spec_event_included name today ∧
      ((is_todays_event_pdf "05_03_2025_SportsDay.pdf" today).1 = true ↔
        today = ⟨2025, 3, 5⟩) ∧
      (f ∈ passFiles env folder ↔
        f ∈ env.files ∧ (is_todays_event_pdf f.name env.eventDate).1 = true) := by
  refine ⟨?_, ?_, ?_⟩
  · cases hp : eventNameParse name.data with
    | none =>
      rw [is_todays_event_pdf, spec_event_included]
      simp only [hp]
    | some q =>
      obtain ⟨dd, mm, run, title⟩ := q
      have hdig : ∀ c ∈ run, isDigitChar c = true :=
        eventNameParse_run_digits name.data dd mm run title hp
      rw [is_todays_event_pdf, spec_event_included]
      simp only [hp]
      exact lengthCond_eq run today
        (listVal dd == today.day) (listVal mm == today.month) hy hdig
  · have hp : eventNameParse ("05_03_2025_SportsDay.pdf").data =
        some (['0', '5'], ['0', '3'], ['2', '0', '2', '5'], "SportsDay".data) := by
      decide
    obtain ⟨y, m, d⟩ := today
    constructor
    · intro h
      rw [is_todays_event_pdf] at h
      simp only [hp] at h
      simp only [Bool.and_eq_true, decide_eq_true_eq, beq_iff_eq] at h
      obtain ⟨⟨⟨⟨hl1, hl2⟩, hd1⟩, hm1⟩, hy1⟩ := h
      have hv1 : listVal ['0', '5'] = 5 := by decide
      have hv2 : listVal ['0', '3'] = 3 := by decide
      have hv3 : runYear ['2', '0', '2', '5'] = 2025 := by decide
      rw [hv1] at hd1
      rw [hv2] at hm1
      rw [hv3] at hy1
      simp only [SgDate.mk.injEq]
      exact ⟨hy1.symm, hm1.symm, hd1.symm⟩
    · intro h
      rw [h]
      decide
  · rw [passFiles]
    have hb : (folder.folder_name == todaysEventName) = true := by
      simpa using hfolder
    rw [hb]
    simp only [if_true]
    exact List.mem_filter

/-- Witness for C5 at the concrete flyer, folder, environment and date. -/
theorem claim5_witness :
    (is_todays_event_pdf "05_03_2025_SportsDay.pdf" cSgDate).1
        = spec_event_included "05_03_2025_SportsDay.pdf" cSgDate ∧
      ((is_todays_event_pdf "05_03_2025_SportsDay.pdf" cSgDate).1 = true ↔
        cSgDate = ⟨2025, 3, 5⟩) ∧
      (cEventFile ∈ passFiles cEnvEvent cFolderTE ↔
        cEventFile ∈ cEnvEvent.files ∧
          (is_todays_event_pdf cEventFile.name cEnvEvent.eventDate).1 = true) :=
  claim5_scheduled_event_filename_filter "05_03_2025_SportsDay.pdf" cSgDate
    cEnvEvent cFolderTE cEventFile (by decide) (by decide)

/-! ## C2: cursor continuity -/

theorem save_shortcut_target_webhooks (st : DbState)
    (sid sname tid tname wfid : String) :
    (save_shortcut_target st sid sname tid tname wfid).webhooks = st.webhooks := by
  rw [save_shortcut_target]
  split <;> rfl

theorem shortcutPrelude_shape (folder : DriveFolder) (f : SyncFile)
    (tr : List SyncAction) (st : DbState) :
    (∃ ext, (shortcutPrelude folder f tr st).1 = tr ++ ext ∧
      ∀ a ∈ ext, isPersist a = false) ∧
    (shortcutPrelude folder f tr st).2.webhooks = st.webhooks := by
  rw [shortcutPrelude]
  split
  · cases hsi : f.shortcut_info with
    | none => exact ⟨⟨[], by simp⟩, rfl⟩
    | some p =>
      obtain ⟨tid, tname⟩ := p
      refine ⟨⟨[SyncAction.savedShortcut (f.id.getD "")], rfl, ?_⟩, ?_⟩
      · intro a ha
        simp only [List.mem_singleton] at ha
        subst ha
        rfl
      · exact save_shortcut_target_webhooks ..
  · exact ⟨⟨[], by simp⟩, rfl⟩

theorem webhookSyncStep_shape (env : WebhookEnv) (folder : DriveFolder)
    (uploadedBy : Int) (now : Nat)
    (acc : List SyncAction × Nat × List String × DbState) (f : SyncFile) :
    (∃ ext, (webhookSyncStep env folder uploadedBy now acc f).1 = acc.1 ++ ext ∧
      ∀ a ∈ ext, isPersist a = false) ∧
    (webhookSyncStep env folder uploadedBy now acc f).2.2.2.webhooks
      = acc.2.2.2.webhooks := by
  obtain ⟨⟨ext1, h1, h2⟩, hwh⟩ := shortcutPrelude_shape folder f acc.1 acc.2.2.2
  have hext : ∀ x : SyncAction, isPersist x = false →
      ∀ a ∈ ext1 ++ [x], isPersist a = false := by
    intro x hx a ha
    rcases List.mem_append.mp ha with ha | ha
    · exact h2 a ha
    · simp only [List.mem_singleton] at ha
      subst ha
      exact hx
  cases ho : webhookProcessFile env (shortcutPrelude folder f acc.1 acc.2.2.2).2
      folder f with
  | downloadFailed =>
    refine ⟨⟨ext1 ++ [SyncAction.fileError (f.name ++ ": Failed to download")],
      ?_, hext _ rfl⟩, ?_⟩
    · simp only [webhookSyncStep, ho, h1, List.append_assoc]
    · simp only [webhookSyncStep, ho]
      exact hwh
  | errored m =>
    refine ⟨⟨ext1 ++ [SyncAction.fileError (f.name ++ ": " ++ m)],
      ?_, hext _ rfl⟩, ?_⟩
    · simp only [webhookSyncStep, ho, h1, List.append_assoc]
    · simp only [webhookSyncStep, ho]
      exact hwh
  | ok tag c =>
    refine ⟨⟨ext1 ++ [SyncAction.ingest f.id], ?_, hext _ rfl⟩, ?_⟩
    · simp only [webhookSyncStep, ho, h1, List.append_assoc]
    · simp only [webhookSyncStep, ho, add_or_update_drive_entry]
      exact hwh

theorem webhookFold_shape (env : WebhookEnv) (folder : DriveFolder)
    (uploadedBy : Int) (now : Nat) :
    ∀ (files : List SyncFile) (acc : List SyncAction × Nat × List String × DbState),
      (∃ ext,
        (files.foldl (webhookSyncStep env folder uploadedBy now) acc).1
          = acc.1 ++ ext ∧ ∀ a ∈ ext, isPersist a = false) ∧
      (files.foldl (webhookSyncStep env folder uploadedBy now) acc).2.2.2.webhooks
        = acc.2.2.2.webhooks := by
  intro files
  induction files with
  | nil => intro acc; exact ⟨⟨[], by simp, by simp⟩, rfl⟩
  | cons f fs ih =>
    intro acc
    obtain ⟨⟨ext1, h1, h2⟩, hw1⟩ := webhookSyncStep_shape env folder uploadedBy now acc f
    obtain ⟨⟨ext2, h3, h4⟩, hw2⟩ := ih (webhookSyncStep env folder uploadedBy now acc f)
    rw [List.foldl_cons]
    refine ⟨⟨ext1 ++ ext2, by rw [h3, h1, List.append_assoc], ?_⟩, by rw [hw2, hw1]⟩
    intro a ha
    rcases List.mem_append.mp ha with ha | ha
    · exact h2 a ha
    · exact h4 a ha

theorem sync_changed_files_shape (env : WebhookEnv) (files : List SyncFile)
    (folder : DriveFolder) (syncUserId : Int) (now : Nat) (st : DbState) :
    (∀ a ∈ (sync_changed_files env files folder syncUserId now st).1,
      isPersist a = false) ∧
    (sync_changed_files env files folder syncUserId now st).2.webhooks
      = st.webhooks := by
  obtain ⟨⟨ext, h1, h2⟩, hw⟩ :=
    webhookFold_shape env folder syncUserId now files ([], 0, [], st)
  rw [sync_changed_files]
  constructor
  · intro a ha
    rw [h1] at ha
    simp only [List.nil_append] at ha
    rcases List.mem_append.mp ha with ha | ha
    · exact h2 a ha
    · rcases List.mem_cons.mp ha with rfl | ha
      · rfl
      · simp only [List.mem_singleton] at ha
        subst ha
        rfl
  · rw [log_sync, update_folder_sync_time]
    exact hw

theorem noActingAfterPersist_of_no_persist :
    ∀ tr : List SyncAction, (∀ a ∈ tr, isPersist a = false) →
      noActingAfterPersist tr = true := by
  intro tr
  induction tr with
  | nil => intro _; rfl
  | cons a rest ih =>
    intro h
    rw [noActingAfterPersist]
    rw [h a (List.mem_cons_self a rest)]
    simp only [Bool.false_eq_true, if_false, Bool.true_and]
    exact ih (fun b hb => h b (List.mem_cons_of_mem a hb))

theorem noActingAfterPersist_append_persist (tr : List SyncAction)
    (p : SyncAction) (h : ∀ a ∈ tr, isPersist a = false) :
    noActingAfterPersist (tr ++ [p]) = true := by
  induction tr with
  | nil =>
    rw [List.nil_append, noActingAfterPersist]
    cases hp : isPersist p <;> simp [noActingAfterPersist]
  | cons a rest ih =>
    rw [List.cons_append, noActingAfterPersist]
    rw [h a (List.mem_cons_self a rest)]
    simp only [Bool.false_eq_true, if_false, Bool.true_and]
    exact ih (fun b hb => h b (List.mem_cons_of_mem a hb))

theorem syncBranch_shape (env : WebhookEnv) (files : List SyncFile)
    (folder : DriveFolder) (st : DbState) :
    (∀ a ∈ (if !files.isEmpty then
        match env.syncUserId with
        | some uid => sync_changed_files env files folder uid env.today st
        | none => ([], st)
      else (([] : List SyncAction), st)).1, isPersist a = false) ∧
    (if !files.isEmpty then
        match env.syncUserId with
        | some uid => sync_changed_files env files folder uid env.today st
        | none => ([], st)
      else (([] : List SyncAction), st)).2.webhooks = st.webhooks := by
  split
  · cases env.syncUserId with
    | some uid => exact sync_changed_files_shape env files folder uid env.today st
    | none => exact ⟨by simp, rfl⟩
  · exact ⟨by simp, rfl⟩

/-- Counterexample to C2 as stated: in the notification-triggered pass the
change is downloaded, extracted and upserted (the `ingest` action) before
`update_webhook_page_token` runs — webhook_handler.py persists the token at
lines 312-314 only after `sync_changed_files` at line 310 — so the cursor is
not persisted before the fetched changes are acted upon. -/
theorem claim2_counterexample_token_persisted_after_processing :
    persistedBeforeActing (process_drive_changes cEnvW cStW "ch1").1 = false ∧
      (process_drive_changes cEnvW cStW "ch1").1.any isPersist = true ∧
      (process_drive_changes cEnvW cStW "ch1").1.any isActing = true := by
  refine ⟨by decide, by decide, by decide⟩

/-- Claim C2 (amended): in the notification-triggered sync path the next
change cursor is persisted to the webhook row only after all fetched changes
have been acted upon — it is the last action of the pass when present — and
as long as no persist action has happened the stored webhook rows (hence the
stored cursor) are unchanged, so a crash after partial processing re-delivers
the same change window instead of skipping it (at-least-once). -/
theorem claim2_amended_cursor_persisted_after_acting (env : WebhookEnv)
    (st : DbState) (channelId : String) :
    noActingAfterPersist (process_drive_changes env st channelId).1 = true ∧
      ((∀ a ∈ (process_drive_changes env st channelId).1, isPersist a = false) →
        (process_drive_changes env st channelId).2.webhooks = st.webhooks) := by
  rw [process_drive_changes]
  cases hw : (get_all_active_webhooks st).find?
      (fun w => w.channel_id == channelId) with
  | none => exact ⟨rfl, fun _ => rfl⟩
  | some wh =>
    dsimp only
    cases hemp : (env.getChanges wh.page_token).1.isEmpty with
    | true =>
      rw [if_pos rfl]
      exact ⟨rfl, fun _ => rfl⟩
    | false =>
      rw [if_neg (by simp)]
      cases hf : get_folder_by_drive_id st wh.folder_id with
      | none => exact ⟨rfl, fun _ => rfl⟩
      | some folder =>
        dsimp only
        obtain ⟨hr1, hr2⟩ := syncBranch_shape env
          (buildFilesToSync env.meta wh.folder_id (env.getChanges wh.page_token).1)
          folder st
        have hpre : ∀ a ∈ [SyncAction.fetch wh.page_token] ++
            (if !(buildFilesToSync env.meta wh.folder_id
                (env.getChanges wh.page_token).1).isEmpty then
              match env.syncUserId with
              | some uid => sync_changed_files env
                  (buildFilesToSync env.meta wh.folder_id
                    (env.getChanges wh.page_token).1) folder uid env.today st
              | none => ([], st)
            else ([], st)).1, isPersist a = false := by
          intro a ha
          rcases List.mem_append.mp ha with ha | ha
          · simp only [List.mem_singleton] at ha
            subst ha
            rfl
          · exact hr1 a ha
        cases ht : (env.getChanges wh.page_token).2 with
        | none =>
          dsimp only
          exact ⟨noActingAfterPersist_of_no_persist _ hpre, fun _ => hr2⟩
        | some t =>
          dsimp only
          constructor
          · rw [List.append_assoc]
            have := noActingAfterPersist_append_persist _
              (SyncAction.persistToken channelId t) hpre
            rw [List.append_assoc] at this
            exact this
          · intro h
            exfalso
            have hmem : SyncAction.persistToken channelId t ∈
                [SyncAction.fetch wh.page_token] ++
                (if !(buildFilesToSync env.meta wh.folder_id
                    (env.getChanges wh.page_token).1).isEmpty then
                  match env.syncUserId with
                  | some uid => sync_changed_files env
                      (buildFilesToSync env.meta wh.folder_id
                        (env.getChanges wh.page_token).1) folder uid env.today st
                  | none => ([], st)
                else ([], st)).1 ++ [SyncAction.persistToken channelId t] := by
              simp
            have := h _ hmem
            simp [isPersist] at this

/-- Witness for C2 (amended) at a concrete notification whose change page is
empty: no cursor persist happens and the webhook rows are untouched. -/
theorem claim2_witness :
    noActingAfterPersist (process_drive_changes cEnvWOne cStW "ch1").1 = true ∧
      (process_drive_changes cEnvWOne cStW "ch1").2.webhooks = cStW.webhooks := by
  refine ⟨(claim2_amended_cursor_persisted_after_acting cEnvWOne cStW "ch1").1, ?_⟩
  exact (claim2_amended_cursor_persisted_after_acting cEnvWOne cStW "ch1").2
    (by decide)

/-! ## C7: shortcut re-attribution -/

/-- Claim C7 is refuted by the code: webhook_handler.py lines 287-298 are a
second `else:` on an `if` that already has one (a syntax error, unreachable
under any parse), so a change naming a shortcut target id is never resolved
back to the watched folder even though the binding is present and retrievable
through `get_shortcut_by_target`; and no reachable code attaches
`_shortcut_info` to a candidate file (line 342 reads a key nothing sets), so
syncing the observed shortcut never persists a ShortcutBinding either.
Concretely: with the binding for target `X` towards watched folder `F`
stored, a change notification naming `X` yields no candidate files and the
pass acts on nothing; and syncing the shortcut file itself leaves the
`shortcut_targets` table unchanged. -/
theorem claim7_shortcut_reattribution_dead_code :
    get_shortcut_by_target cStShortcut "X" = some cShortcutRow ∧
      cShortcutRow.watched_folder_id = "F" ∧
      buildFilesToSync (fun _ => none) "F" [cChangeTarget] = [] ∧
      (process_drive_changes cEnvShortcut cStShortcut "ch1").1.all
        (fun a => !isActing a) = true ∧
      buildFilesToSync (fun _ => none) "F" [cChangeShortcut] = [cShortcutFile] ∧
      cShortcutFile.shortcut_info = none ∧
      (sync_changed_files cEnvShortcut [cShortcutFile] cFolderDocs 9 0
        cStShortcut).2.shortcut_targets = cStShortcut.shortcut_targets := by
  refine ⟨by decide, by decide, by decide, by decide, by decide, by decide,
    by decide⟩

/-! ## C1 and C6: upsert and sync-pass lemmas -/

theorem upsertTouch_of_not_keyed (today now : Nat) (fid : String)
    (c : EntryContent) (e : DailyEntry) (h : entryKeyed today fid e = false) :
    upsertTouch today fid c now e = e := by
  rw [upsertTouch, h]
  simp

theorem upsertTouch_of_keyed (today now : Nat) (fid : String)
    (c : EntryContent) (e : DailyEntry) (h : entryKeyed today fid e = true) :
    upsertTouch today fid c now e = { e with content := c, timestamp := now } := by
  rw [upsertTouch, h]
  simp

theorem filter_map_touch_other (today now d : Nat) (fid fid' : String)
    (c : EntryContent) (hc : c.drive_file_id = some fid)
    (hne : fid' ≠ fid ∨ d ≠ today) :
    ∀ rows : List DailyEntry,
      (rows.map (upsertTouch today fid c now)).filter (entryKeyed d fid')
        = rows.filter (entryKeyed d fid') := by
  intro rows
  induction rows with
  | nil => rfl
  | cons e es ih =>
    rw [List.map_cons, List.filter_cons, List.filter_cons]
    by_cases he : entryKeyed today fid e = true
    · rw [upsertTouch_of_keyed today now fid c e he]
      rw [entryKeyed, Bool.and_eq_true] at he
      obtain ⟨hd1, hf1⟩ := he
      rw [beq_iff_eq] at hd1 hf1
      have hkey : entryKeyed d fid' { e with content := c, timestamp := now }
          = entryKeyed d fid' e := by
        rw [entryKeyed, entryKeyed]
        simp only [hc, hf1]
      rw [hkey]
      cases hk : entryKeyed d fid' e with
      | false =>
        simp only [Bool.false_eq_true, if_false]
        exact ih
      | true =>
        exfalso
        rw [entryKeyed, Bool.and_eq_true] at hk
        obtain ⟨hk1, hk2⟩ := hk
        rw [beq_iff_eq] at hk1 hk2
        rw [hf1] at hk2
        rw [Option.some_inj] at hk2
        rcases hne with hne | hne
        · exact hne hk2.symm
        · rw [hd1] at hk1
          exact hne hk1.symm
    · rw [Bool.not_eq_true] at he
      rw [upsertTouch_of_not_keyed today now fid c e he]
      cases hk : entryKeyed d fid' e with
      | false => simp only [Bool.false_eq_true, if_false]; exact ih
      | true => simp only [if_true]; rw [ih]
  
theorem filter_map_touch_target (today now : Nat) (fid : String)
    (c : EntryContent) (hc : c.drive_file_id = some fid) :
    ∀ rows : List DailyEntry,
      (rows.map (upsertTouch today fid c now)).filter (entryKeyed today fid)
        = (rows.filter (entryKeyed today fid)).map (upsertTouch today fid c now) := by
  intro rows
  induction rows with
  | nil => rfl
  | cons e es ih =>
    rw [List.map_cons, List.filter_cons, List.filter_cons]
    by_cases he : entryKeyed today fid e = true
    · have htouch := upsertTouch_of_keyed today now fid c e he
      rw [htouch]
      have hkey : entryKeyed today fid { e with content := c, timestamp := now }
          = true := by
        rw [entryKeyed, Bool.and_eq_true] at he ⊢
        obtain ⟨hd1, _⟩ := he
        refine ⟨hd1, ?_⟩
        simp [hc]
      rw [hkey, he]
      simp only [if_true, List.map_cons]
      rw [ih, htouch]
    · rw [Bool.not_eq_true] at he
      rw [upsertTouch_of_not_keyed today now fid c e he, he]
      simp only [Bool.false_eq_true, if_false]
      exact ih

theorem filter_append_not_keyed (d : Nat) (fid : String)
    (rows : List DailyEntry) (row : DailyEntry)
    (h : entryKeyed d fid row = false) :
    (rows ++ [row]).filter (entryKeyed d fid) = rows.filter (entryKeyed d fid) := by
  rw [List.filter_append]
  simp [List.filter, h]

theorem filter_eq_nil_of_any_false (d : Nat) (fid : String)
    (rows : List DailyEntry) (h : rows.any (entryKeyed d fid) = false) :
    rows.filter (entryKeyed d fid) = [] := by
  rw [List.filter_eq_nil_iff]
  intro a ha
  rw [List.any_eq_false] at h
  exact h a ha

theorem upsertEntries_count_le (rows : List DailyEntry) (u : Int) (t : String)
    (c : EntryContent) (today now d : Nat) (fid : String)
    (h : (rows.filter (entryKeyed d fid)).length ≤ 1) :
    ((upsertEntries rows u t c today now).filter (entryKeyed d fid)).length ≤ 1 := by
  cases hcf : c.drive_file_id with
  | none =>
    simp only [upsertEntries, hcf]
    rw [filter_append_not_keyed]
    · exact h
    · rw [entryKeyed]
      simp [hcf]
  | some f' =>
    simp only [upsertEntries, hcf]
    split
    · by_cases hk : fid = f' ∧ d = today
      · rw [hk.1, hk.2]
        rw [hk.1, hk.2] at h
        rw [filter_map_touch_target _ _ _ c hcf]
        rw [List.length_map]
        exact h
      · rw [Decidable.not_and_iff_or_not] at hk
        rw [filter_map_touch_other _ _ _ _ _ c hcf hk]
        exact h
    · rename_i hany
      rw [Bool.not_eq_true] at hany
      by_cases hk : entryKeyed d fid ⟨today, t, c, u, now⟩ = true
      · have hsame : d = today ∧ f' = fid := by
          rw [entryKeyed, Bool.and_eq_true] at hk
          obtain ⟨hk1, hk2⟩ := hk
          rw [beq_iff_eq] at hk1 hk2
          simp only [hcf, Option.some_inj] at hk2
          exact ⟨hk1.symm, hk2⟩
        rw [List.filter_append]
        rw [hsame.1, ← hsame.2]
        rw [filter_eq_nil_of_any_false _ _ rows hany]
        have hkeyrow : entryKeyed today f' ⟨today, t, c, u, now⟩ = true := by
          rw [entryKeyed]
          simp [hcf]
        simp [List.filter, hkeyrow]
      · rw [Bool.not_eq_true] at hk
        rw [filter_append_not_keyed d fid rows _ hk]
        exact h

theorem upsertEntries_count_ge (rows : List DailyEntry) (u : Int) (t : String)
    (c : EntryContent) (today now d : Nat) (fid : String) :
    (rows.filter (entryKeyed d fid)).length ≤
      ((upsertEntries rows u t c today now).filter (entryKeyed d fid)).length := by
  cases hcf : c.drive_file_id with
  | none =>
    simp only [upsertEntries, hcf]
    rw [List.filter_append]
    simp
  | some f' =>
    simp only [upsertEntries, hcf]
    split
    · by_cases hk : fid = f' ∧ d = today
      · rw [hk.1, hk.2]
        rw [filter_map_touch_target _ _ _ c hcf]
        rw [List.length_map]
      · rw [Decidable.not_and_iff_or_not] at hk
        rw [filter_map_touch_other _ _ _ _ _ c hcf hk]
    · rw [List.filter_append]
      simp

theorem upsertEntries_target (rows : List DailyEntry) (u : Int) (t : String)
    (c : EntryContent) (today now : Nat) (fid : String)
    (hc : c.drive_file_id = some fid)
    (hle : (rows.filter (entryKeyed today fid)).length ≤ 1) :
    ((upsertEntries rows u t c today now).filter (entryKeyed today fid)).map
      (fun e => (e.content, e.timestamp)) = [(c, now)] := by
  simp only [upsertEntries, hc]
  split
  · rename_i hany
    have hone : ∃ e0, rows.filter (entryKeyed today fid) = [e0] := by
      cases hf : rows.filter (entryKeyed today fid) with
      | nil =>
        exfalso
        rw [List.any_eq_true] at hany
        obtain ⟨x, hx, hpx⟩ := hany
        have : x ∈ rows.filter (entryKeyed today fid) :=
          List.mem_filter.mpr ⟨hx, hpx⟩
        rw [hf] at this
        cases this
      | cons a l =>
        cases l with
        | nil => exact ⟨a, rfl⟩
        | cons b l2 =>
          exfalso
          rw [hf] at hle
          simp at hle
    obtain ⟨e0, he0⟩ := hone
    have hkey : entryKeyed today fid e0 = true := by
      have : e0 ∈ rows.filter (entryKeyed today fid) := by
        rw [he0]
        exact List.mem_singleton.mpr rfl
      exact (List.mem_filter.mp this).2
    rw [filter_map_touch_target _ _ _ c hc, he0]
    rw [List.map_cons, List.map_cons]
    rw [upsertTouch_of_keyed today now fid c e0 hkey]
    simp
  · rename_i hany
    rw [Bool.not_eq_true] at hany
    rw [List.filter_append, filter_eq_nil_of_any_false today fid rows hany]
    have hkey : entryKeyed today fid ⟨today, t, c, u, now⟩ = true := by
      rw [entryKeyed]
      simp [hc]
    simp [List.filter, hkey]

theorem upsertEntries_other (rows : List DailyEntry) (u : Int) (t : String)
    (c : EntryContent) (today now d : Nat) (fid : String)
    (hne : c.drive_file_id ≠ some fid ∨ d ≠ today) :
    (upsertEntries rows u t c today now).filter (entryKeyed d fid)
      = rows.filter (entryKeyed d fid) := by
  cases hcf : c.drive_file_id with
  | none =>
    simp only [upsertEntries, hcf]
    rw [filter_append_not_keyed]
    rw [entryKeyed]
    simp [hcf]
  | some f' =>
    have hne' : ¬fid = f' ∨ ¬d = today := by
      rcases hne with hne | hne
      · left
        intro hx
        rw [hcf, hx] at hne
        exact hne rfl
      · right
        exact hne
    simp only [upsertEntries, hcf]
    split
    · exact filter_map_touch_other _ _ _ _ _ c hcf hne' rows
    · apply filter_append_not_keyed
      rw [entryKeyed]
      simp only [hcf]
      rcases hne' with hne' | hne'
      · have hb : ((some f' : Option String) == some fid) = false := by
          simp only [beq_eq_false_iff_ne, ne_eq, Option.some_inj]
          intro hx
          exact hne' hx.symm
        simp [hb]
      · have hb : ((today : Nat) == d) = false := by
          simp only [beq_eq_false_iff_ne, ne_eq]
          intro hx
          exact hne' hx.symm
        simp [hb]

theorem aou_keyCount_le (st : DbState) (u : Int) (t : String) (c : EntryContent)
    (today now d : Nat) (fid : String) (h : keyCount st d fid ≤ 1) :
    keyCount (add_or_update_drive_entry st u t c today now) d fid ≤ 1 := by
  simp only [keyCount, keyRows, add_or_update_drive_entry] at h ⊢
  exact upsertEntries_count_le st.daily_entries u t c today now d fid h

theorem aou_keyRows_other (st : DbState) (u : Int) (t : String) (c : EntryContent)
    (today now d : Nat) (fid : String)
    (hne : c.drive_file_id ≠ some fid ∨ d ≠ today) :
    keyRows (add_or_update_drive_entry st u t c today now) d fid
      = keyRows st d fid := by
  simp only [keyRows, add_or_update_drive_entry]
  exact upsertEntries_other st.daily_entries u t c today now d fid hne

theorem aou_target (st : DbState) (u : Int) (t : String) (c : EntryContent)
    (today now : Nat) (fid : String) (hc : c.drive_file_id = some fid)
    (hle : keyCount st today fid ≤ 1) :
    KeyRowIs (add_or_update_drive_entry st u t c today now) today fid c now := by
  simp only [keyCount, keyRows] at hle
  simp only [KeyRowIs, keyRows, add_or_update_drive_entry]
  exact upsertEntries_target st.daily_entries u t c today now fid hc hle

theorem ingestContent_keyCount_le (st : DbState) (u : Int) (t : String)
    (c : EntryContent) (today now d : Nat) (fid : String) (hfid : fid ≠ "")
    (h : keyCount st d fid ≤ 1) :
    keyCount (ingestContent st u t c today now) d fid ≤ 1 := by
  rw [ingestContent]
  split
  · exact aou_keyCount_le st u t c today now d fid h
  · rename_i hguard
    simp only [keyCount, keyRows, add_entry] at h ⊢
    rw [filter_append_not_keyed]
    · exact h
    · rw [entryKeyed]
      cases hcf : c.drive_file_id with
      | none => simp
      | some s =>
        have hs : s = "" := by
          rw [hcf] at hguard
          simpa using hguard
        subst hs
        have hb : ((some "" : Option String) == some fid) = false := by
          simp only [beq_eq_false_iff_ne, ne_eq, Option.some_inj]
          intro hx
          exact hfid hx.symm
        simp [hb]

theorem ingestContent_keyRows_other (st : DbState) (u : Int) (t : String)
    (c : EntryContent) (today now d : Nat) (fid : String)
    (hne : c.drive_file_id ≠ some fid ∨ d ≠ today) :
    keyRows (ingestContent st u t c today now) d fid = keyRows st d fid := by
  rw [ingestContent]
  split
  · exact aou_keyRows_other st u t c today now d fid hne
  · simp only [keyRows, add_entry]
    apply filter_append_not_keyed
    rw [entryKeyed]
    rcases hne with hne | hne
    · have hb : (c.drive_file_id == some fid) = false := by
        simpa using hne
      simp [hb]
    · have hb : ((today : Nat) == d) = false := by
        simp only [beq_eq_false_iff_ne, ne_eq]
        intro hx
        exact hne hx.symm
      simp [hb]

theorem ingestContent_target (st : DbState) (u : Int) (t : String)
    (c : EntryContent) (today now : Nat) (fid : String)
    (hc : c.drive_file_id = some fid) (hfid : fid ≠ "")
    (hle : keyCount st today fid ≤ 1) :
    KeyRowIs (ingestContent st u t c today now) today fid c now := by
  rw [ingestContent]
  rw [if_pos]
  · exact aou_target st u t c today now fid hc hle
  · rw [hc]
    simp only [Option.getD_some, bne_iff_ne, ne_eq]
    intro hx
    exact hfid hx

theorem KeyRowIs_count_one (st : DbState) (d : Nat) (fid : String)
    (c : EntryContent) (n : Nat) (h : KeyRowIs st d fid c n) :
    keyCount st d fid = 1 := by
  rw [KeyRowIs] at h
  rw [keyCount]
  have := congrArg List.length h
  rw [List.length_map] at this
  simpa using this

theorem processFile_ok_fid (env : SyncEnv) (folder : DriveFolder)
    (f : DriveFile) (tag : String) (c : EntryContent)
    (h : processFile env folder f = FileOutcome.ok tag c) :
    c.drive_file_id = f.id := by
  rw [processFile] at h
  cases hd : env.download f with
  | none => simp [hd] at h
  | some bytes =>
    simp only [hd] at h
    cases hx : extractText env f bytes
        (detect_file_category f.name folder.folder_name) with
    | error m => simp [hx] at h
    | ok p =>
      obtain ⟨text, ftype⟩ := p
      simp only [hx] at h
      injection h with h1 h2
      rw [← h2]

theorem syncStep_state_count_le (env : SyncEnv) (folder : DriveFolder)
    (uid : Int) (now : Nat) (acc : Nat × List String × DbState) (f : DriveFile)
    (fid : String) (hfid : fid ≠ "")
    (h : keyCount acc.2.2 env.today fid ≤ 1) :
    keyCount (syncStep env folder uid now acc f).2.2 env.today fid ≤ 1 := by
  rw [syncStep]
  cases ho : processFile env folder f with
  | downloadFailed => exact h
  | errored m => exact h
  | ok tag c =>
    exact ingestContent_keyCount_le acc.2.2 uid tag c env.today now env.today
      fid hfid h

theorem syncStep_state_other (env : SyncEnv) (folder : DriveFolder)
    (uid : Int) (now : Nat) (acc : Nat × List String × DbState) (f : DriveFile)
    (fid : String) (hg : f.id ≠ some fid) :
    keyRows (syncStep env folder uid now acc f).2.2 env.today fid
      = keyRows acc.2.2 env.today fid := by
  rw [syncStep]
  cases ho : processFile env folder f with
  | downloadFailed => rfl
  | errored m => rfl
  | ok tag c =>
    apply ingestContent_keyRows_other
    left
    rw [processFile_ok_fid env folder f tag c ho]
    exact hg

theorem syncFold_count_le (env : SyncEnv) (folder : DriveFolder) (uid : Int)
    (now : Nat) (fid : String) (hfid : fid ≠ "") :
    ∀ (files : List DriveFile) (acc : Nat × List String × DbState),
      keyCount acc.2.2 env.today fid ≤ 1 →
      keyCount ((files.foldl (syncStep env folder uid now) acc)).2.2
        env.today fid ≤ 1 := by
  intro files
  induction files with
  | nil => intro acc h; exact h
  | cons f fs ih =>
    intro acc h
    rw [List.foldl_cons]
    exact ih _ (syncStep_state_count_le env folder uid now acc f fid hfid h)

theorem syncFold_keyRows_other (env : SyncEnv) (folder : DriveFolder) (uid : Int)
    (now : Nat) (fid : String) :
    ∀ (files : List DriveFile) (acc : Nat × List String × DbState),
      (∀ g ∈ files, g.id ≠ some fid) →
      keyRows ((files.foldl (syncStep env folder uid now) acc)).2.2 env.today fid
        = keyRows acc.2.2 env.today fid := by
  intro files
  induction files with
  | nil => intro acc _; rfl
  | cons f fs ih =>
    intro acc h
    rw [List.foldl_cons]
    rw [ih _ (fun g hg => h g (List.mem_cons_of_mem f hg))]
    exact syncStep_state_other env folder uid now acc f fid
      (h f (List.mem_cons_self f fs))

theorem syncStep_target (env : SyncEnv) (folder : DriveFolder) (uid : Int)
    (now : Nat) (acc : Nat × List String × DbState) (f : DriveFile)
    (fid : String) (tag : String) (c : EntryContent)
    (hok : processFile env folder f = FileOutcome.ok tag c)
    (hid : f.id = some fid) (hfid : fid ≠ "")
    (hle : keyCount acc.2.2 env.today fid ≤ 1) :
    KeyRowIs (syncStep env folder uid now acc f).2.2 env.today fid c now := by
  rw [syncStep]
  simp only [hok]
  apply ingestContent_target
  · rw [processFile_ok_fid env folder f tag c hok]
    exact hid
  · exact hfid
  · exact hle

theorem syncFolderPass_keyRows (env : SyncEnv) (folder : DriveFolder)
    (uid : Int) (now : Nat) (st : DbState) (d : Nat) (fid : String)
    (hne : (passFiles env folder).isEmpty = false) :
    keyRows (syncFolderPass env folder uid now st) d fid
      = keyRows ((passFiles env folder).foldl (syncStep env folder uid now)
          (0, [], st)).2.2 d fid := by
  rw [syncFolderPass]
  rw [if_neg (by rw [hne]; simp)]
  rfl

theorem save_shortcut_target_daily_entries (st : DbState)
    (sid sname tid tname wfid : String) :
    (save_shortcut_target st sid sname tid tname wfid).daily_entries
      = st.daily_entries := by
  rw [save_shortcut_target]
  split <;> rfl

theorem shortcutPrelude_keyRows (folder : DriveFolder) (f : SyncFile)
    (tr : List SyncAction) (st : DbState) (d : Nat) (fid : String) :
    keyRows (shortcutPrelude folder f tr st).2 d fid = keyRows st d fid := by
  rw [shortcutPrelude]
  split
  · cases hsi : f.shortcut_info with
    | none => rfl
    | some p =>
      obtain ⟨tid, tname⟩ := p
      simp only [keyRows]
      rw [save_shortcut_target_daily_entries]
  · rfl

theorem effectiveAttribution_not_sub (env : WebhookEnv) (st : DbState)
    (folder : DriveFolder) (f : SyncFile) (hsub : f.in_subfolder = false) :
    effectiveAttribution env st folder f = (folder.folder_name, folder) := by
  rw [effectiveAttribution]
  rw [if_neg]
  rw [hsub]
  simp

theorem webhookProcessFile_indep (env : WebhookEnv) (st st' : DbState)
    (folder : DriveFolder) (f : SyncFile) (hsub : f.in_subfolder = false) :
    webhookProcessFile env st folder f = webhookProcessFile env st' folder f := by
  rw [webhookProcessFile, webhookProcessFile]
  rw [effectiveAttribution_not_sub env st folder f hsub]
  rw [effectiveAttribution_not_sub env st' folder f hsub]

theorem webhookProcessFile_ok_fid (env : WebhookEnv) (st : DbState)
    (folder : DriveFolder) (f : SyncFile) (tag : String) (c : EntryContent)
    (h : webhookProcessFile env st folder f = FileOutcome.ok tag c) :
    c.drive_file_id = f.id := by
  rw [webhookProcessFile] at h
  cases hd : env.download f with
  | none => simp [hd] at h
  | some bytes =>
    simp only [hd] at h
    cases hx : webhookExtract env f bytes
        (detect_file_category f.name folder.folder_name) with
    | error m => simp [hx] at h
    | ok p =>
      obtain ⟨text, ftype⟩ := p
      simp only [hx] at h
      injection h with h1 h2
      rw [← h2]

theorem webhookStep_count_le (env : WebhookEnv) (folder : DriveFolder)
    (uid : Int) (now : Nat) (acc : List SyncAction × Nat × List String × DbState)
    (f : SyncFile) (fid : String)
    (h : keyCount acc.2.2.2 env.today fid ≤ 1) :
    keyCount (webhookSyncStep env folder uid now acc f).2.2.2 env.today fid ≤ 1 := by
  have hpre : keyCount (shortcutPrelude folder f acc.1 acc.2.2.2).2 env.today fid ≤ 1 := by
    rw [keyCount, shortcutPrelude_keyRows]
    exact h
  rw [webhookSyncStep]
  cases ho : webhookProcessFile env (shortcutPrelude folder f acc.1 acc.2.2.2).2
      folder f with
  | downloadFailed => exact hpre
  | errored m => exact hpre
  | ok tag c =>
    exact aou_keyCount_le _ uid tag c env.today now env.today fid hpre

theorem webhookStep_other (env : WebhookEnv) (folder : DriveFolder)
    (uid : Int) (now : Nat) (acc : List SyncAction × Nat × List String × DbState)
    (f : SyncFile) (fid : String) (hg : f.id ≠ some fid) :
    keyRows (webhookSyncStep env folder uid now acc f).2.2.2 env.today fid
      = keyRows acc.2.2.2 env.today fid := by
  rw [webhookSyncStep]
  cases ho : webhookProcessFile env (shortcutPrelude folder f acc.1 acc.2.2.2).2
      folder f with
  | downloadFailed => exact shortcutPrelude_keyRows folder f acc.1 acc.2.2.2 _ _
  | errored m => exact shortcutPrelude_keyRows folder f acc.1 acc.2.2.2 _ _
  | ok tag c =>
    rw [aou_keyRows_other]
    · exact shortcutPrelude_keyRows folder f acc.1 acc.2.2.2 _ _
    · left
      rw [webhookProcessFile_ok_fid env _ folder f tag c ho]
      exact hg

theorem webhookFold_count_le (env : WebhookEnv) (folder : DriveFolder)
    (uid : Int) (now : Nat) (fid : String) :
    ∀ (files : List SyncFile) (acc : List SyncAction × Nat × List String × DbState),
      keyCount acc.2.2.2 env.today fid ≤ 1 →
      keyCount ((files.foldl (webhookSyncStep env folder uid now) acc)).2.2.2
        env.today fid ≤ 1 := by
  intro files
  induction files with
  | nil => intro acc h; exact h
  | cons f fs ih =>
    intro acc h
    rw [List.foldl_cons]
    exact ih _ (webhookStep_count_le env folder uid now acc f fid h)

theorem webhookFold_other (env : WebhookEnv) (folder : DriveFolder)
    (uid : Int) (now : Nat) (fid : String) :
    ∀ (files : List SyncFile) (acc : List SyncAction × Nat × List String × DbState),
      (∀ g ∈ files, g.id ≠ some fid) →
      keyRows ((files.foldl (webhookSyncStep env folder uid now) acc)).2.2.2
          env.today fid
        = keyRows acc.2.2.2 env.today fid := by
  intro files
  induction files with
  | nil => intro acc _; rfl
  | cons f fs ih =>
    intro acc h
    rw [List.foldl_cons]
    rw [ih _ (fun g hg => h g (List.mem_cons_of_mem f hg))]
    exact webhookStep_other env folder uid now acc f fid
      (h f (List.mem_cons_self f fs))

theorem webhookStep_target (env : WebhookEnv) (folder : DriveFolder)
    (uid : Int) (now : Nat) (acc : List SyncAction × Nat × List String × DbState)
    (f : SyncFile) (fid tag : String) (c : EntryContent) (st0 : DbState)
    (hok : webhookProcessFile env st0 folder f = FileOutcome.ok tag c)
    (hsub : f.in_subfolder = false)
    (hid : f.id = some fid)
    (hle : keyCount acc.2.2.2 env.today fid ≤ 1) :
    KeyRowIs (webhookSyncStep env folder uid now acc f).2.2.2 env.today fid c now := by
  have hok2 : webhookProcessFile env
      (shortcutPrelude folder f acc.1 acc.2.2.2).2 folder f
      = FileOutcome.ok tag c := by
    rw [webhookProcessFile_indep env _ st0 folder f hsub]
    exact hok
  rw [webhookSyncStep]
  simp only [hok2]
  apply aou_target
  · rw [webhookProcessFile_ok_fid env _ folder f tag c hok2]
    exact hid
  · rw [keyCount, shortcutPrelude_keyRows]
    exact hle

theorem sync_changed_files_keyRows (env : WebhookEnv) (files : List SyncFile)
    (folder : DriveFolder) (uid : Int) (now : Nat) (st : DbState) (d : Nat)
    (fid : String) :
    keyRows (sync_changed_files env files folder uid now st).2 d fid
      = keyRows ((files.foldl (webhookSyncStep env folder uid now)
          ([], 0, [], st))).2.2.2 d fid := rfl

theorem syncPass_target (env : SyncEnv) (folder : DriveFolder) (uid : Int)
    (now : Nat) (st : DbState) (f : DriveFile) (fid tag : String)
    (c : EntryContent) (l1 l2 : List DriveFile)
    (hsplit : passFiles env folder = l1 ++ f :: l2)
    (hl2 : ∀ g ∈ l2, g.id ≠ some fid)
    (hok : processFile env folder f = FileOutcome.ok tag c)
    (hid : f.id = some fid) (hfid : fid ≠ "")
    (hle : keyCount st env.today fid ≤ 1) :
    KeyRowIs (syncFolderPass env folder uid now st) env.today fid c now := by
  have hne : (passFiles env folder).isEmpty = false := by
    rw [hsplit]
    cases l1 <;> rfl
  rw [KeyRowIs, syncFolderPass_keyRows env folder uid now st env.today fid hne]
  rw [hsplit, List.foldl_append, List.foldl_cons]
  rw [syncFold_keyRows_other env folder uid now fid l2 _ hl2]
  have h1 : keyCount (List.foldl (syncStep env folder uid now) (0, [], st) l1).2.2
      env.today fid ≤ 1 :=
    syncFold_count_le env folder uid now fid hfid l1 (0, [], st) hle
  have h2 := syncStep_target env folder uid now _ f fid tag c hok hid hfid h1
  rw [KeyRowIs] at h2
  exact h2

theorem webhookPass_target (env : WebhookEnv) (folder : DriveFolder) (uid : Int)
    (now : Nat) (st st0 : DbState) (wf : SyncFile) (fid tag : String)
    (c : EntryContent) (files : List SyncFile) (l1 l2 : List SyncFile)
    (hsplit : files = l1 ++ wf :: l2)
    (hl2 : ∀ g ∈ l2, g.id ≠ some fid)
    (hok : webhookProcessFile env st0 folder wf = FileOutcome.ok tag c)
    (hsub : wf.in_subfolder = false)
    (hid : wf.id = some fid)
    (hle : keyCount st env.today fid ≤ 1) :
    KeyRowIs (sync_changed_files env files folder uid now st).2
      env.today fid c now := by
  rw [KeyRowIs, sync_changed_files_keyRows]
  rw [hsplit, List.foldl_append, List.foldl_cons]
  rw [webhookFold_other env folder uid now fid l2 _ hl2]
  have h1 : keyCount
      (List.foldl (webhookSyncStep env folder uid now) ([], 0, [], st) l1).2.2.2
      env.today fid ≤ 1 :=
    webhookFold_count_le env folder uid now fid l1 ([], 0, [], st) hle
  have h2 := webhookStep_target env folder uid now _ wf fid tag c st0 hok hsub
      hid h1
  rw [KeyRowIs] at h2
  exact h2

/-! ## C1: per-file-per-day idempotent upsert -/

/-- **C1.** Sync-pass ingestion is idempotent per file and day. For a file
`f` with drive file id `fid` that processes successfully and is the last
listing occurrence with that id, one scheduled/on-demand pass
(`syncFolderPass`, main.py lines 1719-1735) over the folder leaves exactly
one `daily_entries` row keyed `(today, fid)`; a second pass on the same day
leaves that single row holding the re-extracted content with the second
pass's timestamp — an update, not a second insert — and any number `k` of
further passes still leaves exactly one row. The same holds for the
webhook-triggered pass (`sync_changed_files`, webhook_handler.py lines
422-435) over a changed file `wf` reported directly inside the watched
folder. (The row store is modelled from the spec, §4.5: the repository's
`Database.add_or_update_drive_entry`, called at main.py:1732 and
webhook_handler.py:434, is not among the sources.) -/
theorem claim1_sync_pass_idempotent_upsert
    (env : SyncEnv) (folder : DriveFolder) (uid : Int) (n1 n2 : Nat)
    (st : DbState) (f : DriveFile) (fid tag : String) (c : EntryContent)
    (l1 l2 : List DriveFile) (k : Nat)
    (wenv : WebhookEnv) (wfolder : DriveFolder) (wuid : Int) (m1 m2 : Nat)
    (wst : DbState) (wf : SyncFile) (wfid wtag : String) (wc : EntryContent)
    (wfiles : List SyncFile) (wl1 wl2 : List SyncFile)
    (hsplit : passFiles env folder = l1 ++ f :: l2)
    (hl2 : ∀ g ∈ l2, g.id ≠ some fid)
    (hok : processFile env folder f = FileOutcome.ok tag c)
    (hid : f.id = some fid) (hfid : fid ≠ "")
    (hle : keyCount st env.today fid ≤ 1)
    (hwsplit : wfiles = wl1 ++ wf :: wl2)
    (hwl2 : ∀ g ∈ wl2, g.id ≠ some wfid)
    (hwok : webhookProcessFile wenv wst wfolder wf = FileOutcome.ok wtag wc)
    (hwsub : wf.in_subfolder = false)
    (hwid : wf.id = some wfid)
    (hwle : keyCount wst wenv.today wfid ≤ 1) :
    keyCount (syncFolderPass env folder uid n1 st) env.today fid = 1 ∧
    KeyRowIs (syncFolderPass env folder uid n2
        (syncFolderPass env folder uid n1 st)) env.today fid c n2 ∧
    keyCount (syncFolderPass env folder uid n2
        (syncFolderPass env folder uid n1 st)) env.today fid = 1 ∧
    keyCount ((fun s => syncFolderPass env folder uid n2 s)^[k]
        (syncFolderPass env folder uid n1 st)) env.today fid = 1 ∧
    keyCount (sync_changed_files wenv wfiles wfolder wuid m1 wst).2
      wenv.today wfid = 1 ∧
    KeyRowIs (sync_changed_files wenv wfiles wfolder wuid m2
        (sync_changed_files wenv wfiles wfolder wuid m1 wst).2).2
      wenv.today wfid wc m2 ∧
    keyCount (sync_changed_files wenv wfiles wfolder wuid m2
        (sync_changed_files wenv wfiles wfolder wuid m1 wst).2).2
      wenv.today wfid = 1 := by
  have hmain : ∀ (s : DbState) (n : Nat), keyCount s env.today fid ≤ 1 →
      KeyRowIs (syncFolderPass env folder uid n s) env.today fid c n :=
    fun s n hs =>
      syncPass_target env folder uid n s f fid tag c l1 l2 hsplit hl2 hok hid
        hfid hs
  have hcount : ∀ (s : DbState) (n : Nat), keyCount s env.today fid ≤ 1 →
      keyCount (syncFolderPass env folder uid n s) env.today fid = 1 :=
    fun s n hs => KeyRowIs_count_one _ _ _ _ _ (hmain s n hs)
  have h1 := hcount st n1 hle
  have hiter : ∀ j, keyCount ((fun s => syncFolderPass env folder uid n2 s)^[j]
      (syncFolderPass env folder uid n1 st)) env.today fid = 1 := by
    intro j
    induction j with
    | zero =>
      rw [Function.iterate_zero_apply]
      exact h1
    | succ j ih =>
      rw [Function.iterate_succ_apply']
      exact hcount _ n2 (le_of_eq ih)
  have hwmain : ∀ (s : DbState) (n : Nat), keyCount s wenv.today wfid ≤ 1 →
      KeyRowIs (sync_changed_files wenv wfiles wfolder wuid n s).2
        wenv.today wfid wc n :=
    fun s n hs =>
      webhookPass_target wenv wfolder wuid n s wst wf wfid wtag wc wfiles wl1
        wl2 hwsplit hwl2 hwok hwsub hwid hs
  have hwcount : ∀ (s : DbState) (n : Nat), keyCount s wenv.today wfid ≤ 1 →
      keyCount (sync_changed_files wenv wfiles wfolder wuid n s).2
        wenv.today wfid = 1 :=
    fun s n hs => KeyRowIs_count_one _ _ _ _ _ (hwmain s n hs)
  have hw1 := hwcount wst m1 hwle
  exact ⟨h1, hmain _ n2 (le_of_eq h1), hcount _ n2 (le_of_eq h1), hiter k,
    hw1, hwmain _ m2 (le_of_eq hw1), hwcount _ m2 (le_of_eq hw1)⟩

/-- C1 witness: file A (`alpha.txt`, id `a`) synced into folder Staff Docs
from the empty database, then re-synced; and the webhook counterpart of the
same file under the watched folder Docs. -/
theorem claim1_witness :
    keyCount (syncFolderPass cEnvOne cFolderStaff 5 1 cStEmpty)
      cEnvOne.today "a" = 1 ∧
    KeyRowIs (syncFolderPass cEnvOne cFolderStaff 5 2
        (syncFolderPass cEnvOne cFolderStaff 5 1 cStEmpty))
      cEnvOne.today "a" cContentA 2 ∧
    keyCount (syncFolderPass cEnvOne cFolderStaff 5 2
        (syncFolderPass cEnvOne cFolderStaff 5 1 cStEmpty))
      cEnvOne.today "a" = 1 ∧
    keyCount ((fun s => syncFolderPass cEnvOne cFolderStaff 5 2 s)^[3]
        (syncFolderPass cEnvOne cFolderStaff 5 1 cStEmpty))
      cEnvOne.today "a" = 1 ∧
    keyCount (sync_changed_files cEnvWOne [cWFileA] cFolderDocs 6 1 cStEmpty).2
      cEnvWOne.today "a" = 1 ∧
    KeyRowIs (sync_changed_files cEnvWOne [cWFileA] cFolderDocs 6 2
        (sync_changed_files cEnvWOne [cWFileA] cFolderDocs 6 1 cStEmpty).2).2
      cEnvWOne.today "a" cWContentA 2 ∧
    keyCount (sync_changed_files cEnvWOne [cWFileA] cFolderDocs 6 2
        (sync_changed_files cEnvWOne [cWFileA] cFolderDocs 6 1 cStEmpty).2).2
      cEnvWOne.today "a" = 1 :=
  claim1_sync_pass_idempotent_upsert cEnvOne cFolderStaff 5 1 2 cStEmpty
    cFileA "a" "GENERAL" cContentA [] [] 3
    cEnvWOne cFolderDocs 6 1 2 cStEmpty cWFileA "a" "GENERAL" cWContentA
    [cWFileA] [] []
    rfl (by intro g hg; cases hg) rfl rfl (by decide) (by decide)
    rfl (by intro g hg; cases hg) rfl rfl rfl (by decide)

theorem ingestContent_sync_logs (st : DbState) (u : Int) (t : String)
    (c : EntryContent) (today now : Nat) :
    (ingestContent st u t c today now).sync_logs = st.sync_logs := by
  rw [ingestContent]
  split <;> rfl

theorem errorColumn_single (a : String) : errorColumn [a] = some a := by
  rw [errorColumn]
  rw [if_neg (by simp)]
  rfl

/-! ## C6: per-file error isolation -/

/-- **C6.** Per-file error isolation of one sync pass (main.py lines
1637-1759): when the candidate listing of a folder is `[A, B, C]`, `A` and
`C` ingest successfully and `B` fails (either its download returns nothing
or its text extraction raises), the pass still runs to completion: `A` and
`C` each leave exactly one keyed `daily_entries` row, `B`'s per-file message
is carried in the error accumulator, and exactly one sync-log row is
appended recording 3 files seen, 2 processed, and `B`'s message in the
error column. -/
theorem claim6_per_file_error_isolation
    (env : SyncEnv) (folder : DriveFolder) (uid : Int) (now : Nat)
    (st : DbState) (A B C : DriveFile)
    (aid cid tagA tagC bmsg : String) (cA cC : EntryContent)
    (hfiles : passFiles env folder = [A, B, C])
    (hA : processFile env folder A = FileOutcome.ok tagA cA)
    (hB : (processFile env folder B = FileOutcome.downloadFailed ∧
             bmsg = B.name ++ ": Failed to download") ∨
          (∃ m, processFile env folder B = FileOutcome.errored m ∧
             bmsg = B.name ++ ": " ++ m))
    (hC : processFile env folder C = FileOutcome.ok tagC cC)
    (haid : A.id = some aid) (hcid : C.id = some cid)
    (hane : aid ≠ "") (hcne : cid ≠ "") (hac : aid ≠ cid)
    (ha0 : keyCount st env.today aid = 0)
    (hc0 : keyCount st env.today cid = 0) :
    keyCount (syncFolderPass env folder uid now st) env.today aid = 1 ∧
    keyCount (syncFolderPass env folder uid now st) env.today cid = 1 ∧
    (syncFolderPass env folder uid now st).sync_logs =
      st.sync_logs ++ [⟨folder.id, env.today, 3, 2, some bmsg, uid, now⟩] := by
  have h1 : syncStep env folder uid now (0, [], st) A
      = (1, [], ingestContent st uid tagA cA env.today now) := by
    rw [syncStep]
    simp only [hA]
  have h2 : syncStep env folder uid now
      (1, [], ingestContent st uid tagA cA env.today now) B
      = (1, [bmsg], ingestContent st uid tagA cA env.today now) := by
    rcases hB with ⟨hb, rfl⟩ | ⟨m, hb, rfl⟩ <;>
      · rw [syncStep]
        simp only [hb]
        rfl
  have h3 : syncStep env folder uid now
      (1, [bmsg], ingestContent st uid tagA cA env.today now) C
      = (2, [bmsg], ingestContent (ingestContent st uid tagA cA env.today now)
          uid tagC cC env.today now) := by
    rw [syncStep]
    simp only [hC]
  have hfold : List.foldl (syncStep env folder uid now) (0, [], st) [A, B, C]
      = (2, [bmsg], ingestContent (ingestContent st uid tagA cA env.today now)
          uid tagC cC env.today now) := by
    simp only [List.foldl_cons, List.foldl_nil, h1, h2, h3]
  have hpass : syncFolderPass env folder uid now st
      = log_sync (update_folder_sync_time
          (ingestContent (ingestContent st uid tagA cA env.today now)
            uid tagC cC env.today now) folder.id now)
          folder.id env.today 3 2 (some bmsg) uid now := by
    rw [syncFolderPass, hfiles]
    rw [if_neg (by simp)]
    simp only [hfold, errorColumn_single]
    rfl
  have hcAid : cA.drive_file_id = some aid := by
    rw [processFile_ok_fid env folder A tagA cA hA]
    exact haid
  have hcCid : cC.drive_file_id = some cid := by
    rw [processFile_ok_fid env folder C tagC cC hC]
    exact hcid
  have hstA : KeyRowIs (ingestContent st uid tagA cA env.today now)
      env.today aid cA now :=
    ingestContent_target st uid tagA cA env.today now aid hcAid hane
      (by rw [ha0]; exact Nat.zero_le 1)
  have hstC : KeyRowIs (ingestContent (ingestContent st uid tagA cA env.today now)
      uid tagC cC env.today now) env.today cid cC now := by
    apply ingestContent_target _ uid tagC cC env.today now cid hcCid hcne
    rw [keyCount, ingestContent_keyRows_other]
    · rw [← keyCount, hc0]
      exact Nat.zero_le 1
    · left
      rw [hcAid]
      intro hx
      exact hac (Option.some.inj hx)
  refine ⟨?_, ?_, ?_⟩
  · rw [hpass]
    show keyCount (ingestContent (ingestContent st uid tagA cA env.today now)
        uid tagC cC env.today now) env.today aid = 1
    rw [keyCount, ingestContent_keyRows_other]
    · rw [← keyCount]
      exact KeyRowIs_count_one _ _ _ _ _ hstA
    · left
      rw [hcCid]
      intro hx
      exact hac (Option.some.inj hx).symm
  · rw [hpass]
    show keyCount (ingestContent (ingestContent st uid tagA cA env.today now)
        uid tagC cC env.today now) env.today cid = 1
    exact KeyRowIs_count_one _ _ _ _ _ hstC
  · rw [hpass]
    show (update_folder_sync_time
        (ingestContent (ingestContent st uid tagA cA env.today now)
          uid tagC cC env.today now) folder.id now).sync_logs
        ++ [⟨folder.id, env.today, 3, 2, some bmsg, uid, now⟩]
      = st.sync_logs ++ [⟨folder.id, env.today, 3, 2, some bmsg, uid, now⟩]
    show (ingestContent (ingestContent st uid tagA cA env.today now)
          uid tagC cC env.today now).sync_logs
        ++ [⟨folder.id, env.today, 3, 2, some bmsg, uid, now⟩]
      = st.sync_logs ++ [⟨folder.id, env.today, 3, 2, some bmsg, uid, now⟩]
    rw [ingestContent_sync_logs, ingestContent_sync_logs]

/-- C6 witness: in the three-file scenario over Staff Docs only B
(`beta.txt`) fails to download; A and C each get their row and the single
sync-log row records 3 seen, 2 processed and B\x27s message. -/
theorem claim6_witness :
    keyCount (syncFolderPass cEnvABC cFolderStaff 5 9 cStEmpty)
      cEnvABC.today "a" = 1 ∧
    keyCount (syncFolderPass cEnvABC cFolderStaff 5 9 cStEmpty)
      cEnvABC.today "c" = 1 ∧
    (syncFolderPass cEnvABC cFolderStaff 5 9 cStEmpty).sync_logs =
      cStEmpty.sync_logs ++ [⟨cFolderStaff.id, cEnvABC.today, 3, 2,
        some "beta.txt: Failed to download", 5, 9⟩] :=
  claim6_per_file_error_isolation cEnvABC cFolderStaff 5 9 cStEmpty
    cFileA cFileB cFileC "a" "c" "GENERAL" "GENERAL"
    "beta.txt: Failed to download" cContentA cContentC
    rfl rfl (Or.inl ⟨rfl, rfl⟩) rfl rfl rfl (by decide) (by decide)
    (by decide) (by decide) (by decide)

/-! ## C3: renewal sweep lemmas -/

theorem any_channel_eq_false (l : List WebhookRow) (ch : String)
    (h : ∀ r ∈ l, ch ≠ r.channel_id) :
    l.any (fun r => r.channel_id == ch) = false := by
  rw [List.any_eq_false]
  intro r hr
  simp only [beq_iff_eq]
  intro he
  exact h r hr he.symm

theorem renewOne_none (register : String → Option ChannelGrant) (w : WebhookRow)
    (s : DbState) (h : register w.folder_id = none) :
    renewOne register w s = s := by
  rw [renewOne]
  simp only [h]

theorem renewOneStates_none (register : String → Option ChannelGrant)
    (w : WebhookRow) (s : DbState) (h : register w.folder_id = none) :
    renewOneStates register w s = [s] := by
  rw [renewOneStates]
  simp only [h]

theorem renewOne_webhooks (register : String → Option ChannelGrant)
    (w : WebhookRow) (s : DbState) (g : ChannelGrant)
    (hreg : register w.folder_id = some g)
    (hfr : s.webhooks.any (fun r => r.channel_id == g.channelId) = false) :
    (renewOne register w s).webhooks
      = ((s.webhooks ++ [(⟨w.folder_id, g.channelId, g.resourceId, w.webhook_url,
            w.page_token, true, some g.expiresAt⟩ : WebhookRow)]).map
          (fun r : WebhookRow =>
            if r.channel_id == w.channel_id then { r with active := false }
            else r)) := by
  rw [renewOne]
  simp only [hreg]
  rw [save_webhook]
  rw [if_neg (by rw [hfr]; simp)]
  rfl

theorem renewOneStates_some (register : String → Option ChannelGrant)
    (w : WebhookRow) (s : DbState) (g : ChannelGrant)
    (hreg : register w.folder_id = some g) :
    renewOneStates register w s
      = [save_webhook s w.folder_id g.channelId g.resourceId w.webhook_url
            w.page_token (some g.expiresAt),
         deactivate_webhook
           (save_webhook s w.folder_id g.channelId g.resourceId w.webhook_url
             w.page_token (some g.expiresAt)) w.channel_id] := by
  rw [renewOneStates]
  simp only [hreg]

theorem deact_channel (ch : String) (r : WebhookRow) :
    ((if r.channel_id == ch then { r with active := false } else r) :
      WebhookRow).channel_id = r.channel_id := by
  split <;> rfl

theorem deact_folder (ch : String) (r : WebhookRow) :
    ((if r.channel_id == ch then { r with active := false } else r) :
      WebhookRow).folder_id = r.folder_id := by
  split <;> rfl

theorem deact_page_token (ch : String) (r : WebhookRow) :
    ((if r.channel_id == ch then { r with active := false } else r) :
      WebhookRow).page_token = r.page_token := by
  split <;> rfl

theorem deact_active_true {ch : String} {r : WebhookRow}
    (h : ((if r.channel_id == ch then { r with active := false } else r) :
      WebhookRow).active = true) :
    r.active = true ∧ r.channel_id ≠ ch := by
  by_cases hc : (r.channel_id == ch) = true
  · rw [if_pos hc] at h
    exact absurd h (by simp)
  · rw [if_neg hc] at h
    exact ⟨h, by simpa using hc⟩

theorem deact_eq_self {ch : String} {r : WebhookRow} (h : r.channel_id ≠ ch) :
    (if r.channel_id == ch then { r with active := false } else r) = r := by
  rw [if_neg (by simpa using h)]

theorem mapNodup_injOn (f : WebhookRow → String) :
    ∀ (l : List WebhookRow), (l.map f).Nodup →
      ∀ a ∈ l, ∀ b ∈ l, f a = f b → a = b := by
  intro l
  induction l with
  | nil =>
    intro _ a ha
    cases ha
  | cons x xs ih =>
    intro h a ha b hb hf
    rw [List.map_cons, List.nodup_cons] at h
    rcases List.mem_cons.mp ha with ha1 | ha1
    · rcases List.mem_cons.mp hb with hb1 | hb1
      · rw [ha1, hb1]
      · subst ha1
        exact absurd (by rw [hf]; exact List.mem_map_of_mem f hb1) h.1
    · rcases List.mem_cons.mp hb with hb1 | hb1
      · subst hb1
        exact absurd (by rw [← hf]; exact List.mem_map_of_mem f ha1) h.1
      · exact ih h.2 a ha1 b hb1 hf

theorem channel_injOn (s : DbState) (h : (channelsOf s).Nodup) :
    ∀ a ∈ s.webhooks, ∀ b ∈ s.webhooks, a.channel_id = b.channel_id → a = b := by
  rw [channelsOf] at h
  exact mapNodup_injOn (fun r => r.channel_id) s.webhooks h

theorem channels_map_deact (ch : String) (l : List WebhookRow) :
    (l.map (fun r => if r.channel_id == ch then { r with active := false }
        else r)).map (fun r => r.channel_id)
      = l.map (fun r => r.channel_id) := by
  induction l with
  | nil => rfl
  | cons x xs ih =>
    simp only [List.map_cons, ih]
    rw [deact_channel]

theorem channelsOf_renewOne (register : String → Option ChannelGrant)
    (w : WebhookRow) (s : DbState) (g : ChannelGrant)
    (hreg : register w.folder_id = some g)
    (hfr : s.webhooks.any (fun r => r.channel_id == g.channelId) = false) :
    channelsOf (renewOne register w s) = channelsOf s ++ [g.channelId] := by
  rw [channelsOf, renewOne_webhooks register w s g hreg hfr]
  rw [channels_map_deact]
  rw [List.map_append]
  rfl

theorem renewOne_row_cases (register : String → Option ChannelGrant)
    (v : WebhookRow) (s : DbState) (g : ChannelGrant)
    (hreg : register v.folder_id = some g)
    (hfr : s.webhooks.any (fun r => r.channel_id == g.channelId) = false)
    (hgv : g.channelId ≠ v.channel_id) {r' : WebhookRow}
    (h : r' ∈ (renewOne register v s).webhooks) :
    (∃ a ∈ s.webhooks,
        r' = if a.channel_id == v.channel_id then { a with active := false }
          else a) ∨
    r' = ⟨v.folder_id, g.channelId, g.resourceId, v.webhook_url, v.page_token,
      true, some g.expiresAt⟩ := by
  rw [renewOne_webhooks register v s g hreg hfr] at h
  rcases List.mem_map.mp h with ⟨a, hamem, hfa⟩
  rcases List.mem_append.mp hamem with ha | ha
  · exact Or.inl ⟨a, ha, hfa.symm⟩
  · right
    rw [List.mem_singleton] at ha
    subst ha
    rw [← hfa]
    exact deact_eq_self hgv

theorem renewOne_active_row_cases (register : String → Option ChannelGrant)
    (v : WebhookRow) (s : DbState) (g : ChannelGrant)
    (hreg : register v.folder_id = some g)
    (hfr : s.webhooks.any (fun r => r.channel_id == g.channelId) = false)
    (hgv : g.channelId ≠ v.channel_id) {r' : WebhookRow}
    (h : r' ∈ (renewOne register v s).webhooks) (hact : r'.active = true) :
    (r' ∈ s.webhooks ∧ r'.channel_id ≠ v.channel_id) ∨
    r' = ⟨v.folder_id, g.channelId, g.resourceId, v.webhook_url, v.page_token,
      true, some g.expiresAt⟩ := by
  rcases renewOne_row_cases register v s g hreg hfr hgv h with ⟨a, hamem, he⟩ | he
  · subst he
    obtain ⟨haact, hach⟩ := deact_active_true hact
    left
    rw [deact_eq_self hach]
    exact ⟨hamem, hach⟩
  · exact Or.inr he

theorem renewOne_mem_of_mem (register : String → Option ChannelGrant)
    (v : WebhookRow) (s : DbState) (g : ChannelGrant)
    (hreg : register v.folder_id = some g)
    (hfr : s.webhooks.any (fun r => r.channel_id == g.channelId) = false)
    (a : WebhookRow) (ha : a ∈ s.webhooks) :
    (if a.channel_id == v.channel_id then { a with active := false } else a)
      ∈ (renewOne register v s).webhooks := by
  rw [renewOne_webhooks register v s g hreg hfr]
  exact List.mem_map_of_mem _ (List.mem_append_left _ ha)

theorem renewOne_mem_new (register : String → Option ChannelGrant)
    (v : WebhookRow) (s : DbState) (g : ChannelGrant)
    (hreg : register v.folder_id = some g)
    (hfr : s.webhooks.any (fun r => r.channel_id == g.channelId) = false)
    (hgv : g.channelId ≠ v.channel_id) :
    (⟨v.folder_id, g.channelId, g.resourceId, v.webhook_url, v.page_token, true,
      some g.expiresAt⟩ : WebhookRow) ∈ (renewOne register v s).webhooks := by
  rw [renewOne_webhooks register v s g hreg hfr]
  have hm : (⟨v.folder_id, g.channelId, g.resourceId, v.webhook_url,
      v.page_token, true, some g.expiresAt⟩ : WebhookRow)
      ∈ s.webhooks ++ [(⟨v.folder_id, g.channelId, g.resourceId, v.webhook_url,
          v.page_token, true, some g.expiresAt⟩ : WebhookRow)] :=
    List.mem_append_right _ (List.mem_singleton_self _)
  have h2 := List.mem_map_of_mem
    (fun r : WebhookRow =>
      if r.channel_id == v.channel_id then { r with active := false } else r) hm
  have hcond : (g.channelId == v.channel_id) = false := by simpa using hgv
  simpa only [hcond, Bool.false_eq_true, if_false] using h2

theorem sweepInv_step (register : String → Option ChannelGrant)
    (hinj : ∀ f1 f2 g1 g2, register f1 = some g1 → register f2 = some g2 →
      g1.channelId = g2.channelId → f1 = f2)
    (v : WebhookRow) (rem : List WebhookRow) (s : DbState)
    (inv : SweepInv register (v :: rem) s) :
    SweepInv register rem (renewOne register v s) := by
  cases hreg : register v.folder_id with
  | none =>
    rw [renewOne_none register v s hreg]
    refine ⟨inv.atMost, inv.nodupCh, ?_, ?_, ?_⟩
    · intro u hu
      exact inv.liveRow u (List.mem_cons_of_mem v hu)
    · intro u hu
      exact inv.fresh u (List.mem_cons_of_mem v hu)
    · have h := inv.foldersNodup
      rw [List.map_cons, List.nodup_cons] at h
      exact h.2
  | some g =>
    have hfreshv : ∀ r ∈ s.webhooks, g.channelId ≠ r.channel_id :=
      inv.fresh v (List.mem_cons_self v rem) g hreg
    have hfr : s.webhooks.any (fun r => r.channel_id == g.channelId) = false :=
      any_channel_eq_false s.webhooks g.channelId hfreshv
    obtain ⟨rv, hrvmem, hrvch, hrvact, hrvfld⟩ :=
      inv.liveRow v (List.mem_cons_self v rem)
    have hgv : g.channelId ≠ v.channel_id := by
      have h := hfreshv rv hrvmem
      rw [hrvch] at h
      exact h
    have hnd := inv.foldersNodup
    rw [List.map_cons, List.nodup_cons] at hnd
    refine ⟨?_, ?_, ?_, ?_, hnd.2⟩
    · intro r1 h1 r2 h2 hact1 hact2 hff
      rcases renewOne_active_row_cases register v s g hreg hfr hgv h1 hact1 with
        ⟨hm1, hc1⟩ | he1
      · rcases renewOne_active_row_cases register v s g hreg hfr hgv h2 hact2 with
          ⟨hm2, hc2⟩ | he2
        · exact inv.atMost r1 hm1 r2 hm2 hact1 hact2 hff
        · have hfold : r1.folder_id = rv.folder_id := by
            rw [hff, he2, hrvfld]
          have hch := inv.atMost r1 hm1 rv hrvmem hact1 hrvact hfold
          rw [hrvch] at hch
          exact absurd hch hc1
      · rcases renewOne_active_row_cases register v s g hreg hfr hgv h2 hact2 with
          ⟨hm2, hc2⟩ | he2
        · have hfold : r2.folder_id = rv.folder_id := by
            rw [← hff, he1, hrvfld]
          have hch := inv.atMost r2 hm2 rv hrvmem hact2 hrvact hfold
          rw [hrvch] at hch
          exact absurd hch hc2
        · rw [he1, he2]
    · rw [channelsOf_renewOne register v s g hreg hfr]
      have hni : g.channelId ∉ channelsOf s := by
        intro hmem
        rw [channelsOf] at hmem
        rcases List.mem_map.mp hmem with ⟨r, hr, he⟩
        exact hfreshv r hr he.symm
      exact List.Nodup.append inv.nodupCh (List.nodup_singleton _)
        (fun x hx1 hx2 => absurd (List.mem_singleton.mp hx2 ▸ hx1) hni)
    · intro u hu
      obtain ⟨ru, hrumem, hruch, hruact, hrufld⟩ :=
        inv.liveRow u (List.mem_cons_of_mem v hu)
      have hrune : ru.channel_id ≠ v.channel_id := by
        intro he
        have heq : ru = rv :=
          channel_injOn s inv.nodupCh ru hrumem rv hrvmem (he.trans hrvch.symm)
        have hf : u.folder_id = v.folder_id := by
          rw [← hrufld, heq, hrvfld]
        exact hnd.1 (by rw [← hf]; exact List.mem_map_of_mem _ hu)
      refine ⟨ru, ?_, hruch, hruact, hrufld⟩
      have hm := renewOne_mem_of_mem register v s g hreg hfr ru hrumem
      rwa [deact_eq_self hrune] at hm
    · intro u hu g' hg' r' hr'
      rcases renewOne_row_cases register v s g hreg hfr hgv hr' with
        ⟨a, hamem, he⟩ | he
      · have hch : r'.channel_id = a.channel_id := by
          rw [he, deact_channel]
        rw [hch]
        exact inv.fresh u (List.mem_cons_of_mem v hu) g' hg' a hamem
      · rw [he]
        intro heq
        have hf : u.folder_id = v.folder_id :=
          hinj u.folder_id v.folder_id g' g hg' hreg heq
        exact hnd.1 (by rw [← hf]; exact List.mem_map_of_mem _ hu)

theorem renewOne_live (register : String → Option ChannelGrant)
    (v : WebhookRow) (rem : List WebhookRow) (s : DbState) (F : String)
    (inv : SweepInv register (v :: rem) s)
    (hl : hasLiveSub s F = true) :
    hasLiveSub (renewOne register v s) F = true ∧
    ∀ x ∈ renewOneStates register v s, hasLiveSub x F = true := by
  cases hreg : register v.folder_id with
  | none =>
    rw [renewOne_none register v s hreg, renewOneStates_none register v s hreg]
    refine ⟨hl, ?_⟩
    intro x hx
    rw [List.mem_singleton] at hx
    subst hx
    exact hl
  | some g =>
    have hfreshv := inv.fresh v (List.mem_cons_self v rem) g hreg
    have hfr := any_channel_eq_false s.webhooks g.channelId hfreshv
    obtain ⟨rv, hrvmem, hrvch, hrvact, hrvfld⟩ :=
      inv.liveRow v (List.mem_cons_self v rem)
    have hgv : g.channelId ≠ v.channel_id := by
      have h := hfreshv rv hrvmem
      rw [hrvch] at h
      exact h
    rw [hasLiveSub, List.any_eq_true] at hl
    obtain ⟨r, hrmem, hrp⟩ := hl
    have hract : r.active = true := by
      have h := hrp
      simp only [Bool.and_eq_true] at h
      exact h.1
    have hrfld : r.folder_id = F := by
      have h := hrp
      simp only [Bool.and_eq_true, beq_iff_eq] at h
      exact h.2
    have hmain : hasLiveSub (renewOne register v s) F = true := by
      by_cases hch : r.channel_id = v.channel_id
      · have hr_rv : r = rv :=
          channel_injOn s inv.nodupCh r hrmem rv hrvmem (hch.trans hrvch.symm)
        have hFv : F = v.folder_id := by
          rw [← hrfld, hr_rv, hrvfld]
        rw [hasLiveSub, List.any_eq_true]
        refine ⟨_, renewOne_mem_new register v s g hreg hfr hgv, ?_⟩
        simp [hFv]
      · rw [hasLiveSub, List.any_eq_true]
        have hm := renewOne_mem_of_mem register v s g hreg hfr r hrmem
        rw [deact_eq_self hch] at hm
        exact ⟨r, hm, hrp⟩
    refine ⟨hmain, ?_⟩
    rw [renewOneStates_some register v s g hreg]
    intro x hx
    rcases List.mem_cons.mp hx with rfl | hx
    · rw [hasLiveSub, List.any_eq_true]
      refine ⟨r, ?_, hrp⟩
      rw [save_webhook, if_neg (by rw [hfr]; simp)]
      exact List.mem_append_left _ hrmem
    · rcases List.mem_cons.mp hx with rfl | hx
      · have he : renewOne register v s = deactivate_webhook
            (save_webhook s v.folder_id g.channelId g.resourceId v.webhook_url
              v.page_token (some g.expiresAt)) v.channel_id := by
          rw [renewOne]
          simp only [hreg]
        rw [← he]
        exact hmain
      · cases hx

theorem sweepGo_inv (register : String → Option ChannelGrant)
    (hinj : ∀ f1 f2 g1 g2, register f1 = some g1 → register f2 = some g2 →
      g1.channelId = g2.channelId → f1 = f2) :
    ∀ (rem : List WebhookRow) (s : DbState), SweepInv register rem s →
      SweepInv register [] (sweepGo register rem s).2 := by
  intro rem
  induction rem with
  | nil =>
    intro s h
    exact ⟨h.atMost, h.nodupCh, fun w hw => absurd hw (List.not_mem_nil w),
      fun w hw => absurd hw (List.not_mem_nil w), List.nodup_nil⟩
  | cons v vs ih =>
    intro s h
    show SweepInv register [] (sweepGo register vs (renewOne register v s)).2
    exact ih _ (sweepInv_step register hinj v vs s h)

theorem sweepGo_suffix_inv (register : String → Option ChannelGrant)
    (hinj : ∀ f1 f2 g1 g2, register f1 = some g1 → register f2 = some g2 →
      g1.channelId = g2.channelId → f1 = f2) :
    ∀ (xs rem : List WebhookRow) (s : DbState),
      SweepInv register (xs ++ rem) s →
      SweepInv register rem (sweepGo register xs s).2 := by
  intro xs
  induction xs with
  | nil =>
    intro rem s h
    exact h
  | cons x xs ih =>
    intro rem s h
    show SweepInv register rem (sweepGo register xs (renewOne register x s)).2
    exact ih rem _ (sweepInv_step register hinj x (xs ++ rem) s h)

theorem sweepGo_append_snd (register : String → Option ChannelGrant) :
    ∀ (xs ys : List WebhookRow) (s : DbState),
      (sweepGo register (xs ++ ys) s).2
        = (sweepGo register ys (sweepGo register xs s).2).2 := by
  intro xs
  induction xs with
  | nil => intro ys s; rfl
  | cons x xs ih =>
    intro ys s
    show (sweepGo register (xs ++ ys) (renewOne register x s)).2
      = (sweepGo register ys (sweepGo register xs (renewOne register x s)).2).2
    exact ih ys _

theorem sweepGo_live_all (register : String → Option ChannelGrant)
    (hinj : ∀ f1 f2 g1 g2, register f1 = some g1 → register f2 = some g2 →
      g1.channelId = g2.channelId → f1 = f2) :
    ∀ (rem : List WebhookRow) (s : DbState) (F : String),
      SweepInv register rem s → hasLiveSub s F = true →
      hasLiveSub (sweepGo register rem s).2 F = true ∧
      ∀ x ∈ (sweepGo register rem s).1, hasLiveSub x F = true := by
  intro rem
  induction rem with
  | nil =>
    intro s F _ hl
    exact ⟨hl, fun x hx => absurd hx (List.not_mem_nil x)⟩
  | cons v vs ih =>
    intro s F h hl
    have hstep := renewOne_live register v vs s F h hl
    have hinv2 := sweepInv_step register hinj v vs s h
    have hrest := ih (renewOne register v s) F hinv2 hstep.1
    constructor
    · show hasLiveSub (sweepGo register vs (renewOne register v s)).2 F = true
      exact hrest.1
    · intro x hx
      have hx2 : x ∈ renewOneStates register v s ++
          (sweepGo register vs (renewOne register v s)).1 := hx
      rcases List.mem_append.mp hx2 with hx3 | hx3
      · exact hstep.2 x hx3
      · exact hrest.2 x hx3

theorem countP_channel_map_deact (dch ch : String) (l : List WebhookRow) :
    (l.map (fun r => if r.channel_id == dch then { r with active := false }
        else r)).countP (fun r => r.channel_id == ch)
      = l.countP (fun r => r.channel_id == ch) := by
  induction l with
  | nil => rfl
  | cons x xs ih =>
    simp only [List.map_cons, List.countP_cons, ih, deact_channel]

theorem renewOne_preserve (register : String → Option ChannelGrant)
    (v : WebhookRow) (rem : List WebhookRow) (s : DbState)
    (ch fid : String) (pt : Option String)
    (inv : SweepInv register (v :: rem) s)
    (hvch : v.channel_id ≠ ch)
    (hgch : ∀ g', register v.folder_id = some g' → g'.channelId ≠ ch) :
    (RowLiveFields s ch fid pt = true →
      RowLiveFields (renewOne register v s) ch fid pt = true) ∧
    (ChannelDead s ch = true → ChannelDead (renewOne register v s) ch = true) ∧
    chCount (renewOne register v s) ch = chCount s ch := by
  cases hreg : register v.folder_id with
  | none =>
    rw [renewOne_none register v s hreg]
    exact ⟨id, id, rfl⟩
  | some g =>
    have hfreshv := inv.fresh v (List.mem_cons_self v rem) g hreg
    have hfr := any_channel_eq_false s.webhooks g.channelId hfreshv
    obtain ⟨rv, hrvmem, hrvch, hrvact, hrvfld⟩ :=
      inv.liveRow v (List.mem_cons_self v rem)
    have hgv : g.channelId ≠ v.channel_id := by
      have h := hfreshv rv hrvmem
      rw [hrvch] at h
      exact h
    have hgne : g.channelId ≠ ch := hgch g hreg
    refine ⟨?_, ?_, ?_⟩
    · intro h
      rw [RowLiveFields, List.any_eq_true] at h
      obtain ⟨r, hrmem, hrp⟩ := h
      have hrch : r.channel_id = ch := by
        have h2 := hrp
        simp only [Bool.and_eq_true, beq_iff_eq] at h2
        exact h2.1
      have hrne : r.channel_id ≠ v.channel_id := by
        rw [hrch]
        exact fun he => hvch he.symm
      rw [RowLiveFields, List.any_eq_true]
      have hm := renewOne_mem_of_mem register v s g hreg hfr r hrmem
      rw [deact_eq_self hrne] at hm
      exact ⟨r, hm, hrp⟩
    · intro h
      rw [ChannelDead, List.all_eq_true] at h
      rw [ChannelDead, List.all_eq_true]
      intro r' hr'
      rcases renewOne_row_cases register v s g hreg hfr hgv hr' with
        ⟨a, hamem, he⟩ | he
      · subst he
        by_cases hc : (a.channel_id == v.channel_id) = true
        · rw [if_pos hc]
          simp
        · rw [if_neg hc]
          exact h a hamem
      · subst he
        simp [hgne]
    · rw [chCount, renewOne_webhooks register v s g hreg hfr,
        countP_channel_map_deact, List.countP_append]
      have h0 : List.countP (fun r : WebhookRow => r.channel_id == ch)
          [(⟨v.folder_id, g.channelId, g.resourceId, v.webhook_url, v.page_token,
            true, some g.expiresAt⟩ : WebhookRow)] = 0 := by
        simp [List.countP_cons, List.countP_nil, hgne]
      rw [h0]
      rfl

theorem renewOne_establish (register : String → Option ChannelGrant)
    (w : WebhookRow) (rem : List WebhookRow) (s : DbState) (g : ChannelGrant)
    (inv : SweepInv register (w :: rem) s)
    (hreg : register w.folder_id = some g) :
    RowLiveFields (renewOne register w s) g.channelId w.folder_id
      w.page_token = true ∧
    ChannelDead (renewOne register w s) w.channel_id = true ∧
    chCount (renewOne register w s) g.channelId = 1 := by
  have hfreshv := inv.fresh w (List.mem_cons_self w rem) g hreg
  have hfr := any_channel_eq_false s.webhooks g.channelId hfreshv
  obtain ⟨rv, hrvmem, hrvch, hrvact, hrvfld⟩ :=
    inv.liveRow w (List.mem_cons_self w rem)
  have hgv : g.channelId ≠ w.channel_id := by
    have h := hfreshv rv hrvmem
    rw [hrvch] at h
    exact h
  refine ⟨?_, ?_, ?_⟩
  · rw [RowLiveFields, List.any_eq_true]
    refine ⟨_, renewOne_mem_new register w s g hreg hfr hgv, ?_⟩
    simp
  · rw [ChannelDead, List.all_eq_true]
    intro r' hr'
    rcases renewOne_row_cases register w s g hreg hfr hgv hr' with
      ⟨a, hamem, he⟩ | he
    · subst he
      by_cases hc : (a.channel_id == w.channel_id) = true
      · rw [if_pos hc]
        simp
      · rw [if_neg hc]
        have hcf : (a.channel_id == w.channel_id) = false := by
          simpa using hc
        simp [hcf]
    · subst he
      simp [hgv]
  · rw [chCount, renewOne_webhooks register w s g hreg hfr,
      countP_channel_map_deact, List.countP_append]
    have h0 : List.countP (fun r : WebhookRow => r.channel_id == g.channelId)
        s.webhooks = 0 := by
      rw [List.countP_eq_zero]
      intro a ha
      exact (List.any_eq_false.mp hfr) a ha
    rw [h0]
    simp

theorem sweepGo_preserve (register : String → Option ChannelGrant)
    (hinj : ∀ f1 f2 g1 g2, register f1 = some g1 → register f2 = some g2 →
      g1.channelId = g2.channelId → f1 = f2) :
    ∀ (rem : List WebhookRow) (s : DbState) (ch fid : String)
      (pt : Option String),
      SweepInv register rem s →
      (∀ v ∈ rem, v.channel_id ≠ ch) →
      (∀ v ∈ rem, ∀ g', register v.folder_id = some g' → g'.channelId ≠ ch) →
      (RowLiveFields s ch fid pt = true →
        RowLiveFields (sweepGo register rem s).2 ch fid pt = true) ∧
      (ChannelDead s ch = true →
        ChannelDead (sweepGo register rem s).2 ch = true) ∧
      chCount (sweepGo register rem s).2 ch = chCount s ch := by
  intro rem
  induction rem with
  | nil =>
    intro s ch fid pt _ _ _
    exact ⟨id, id, rfl⟩
  | cons v vs ih =>
    intro s ch fid pt h hv hg
    have hstep := renewOne_preserve register v vs s ch fid pt h
      (hv v (List.mem_cons_self v vs)) (hg v (List.mem_cons_self v vs))
    have hinv2 := sweepInv_step register hinj v vs s h
    have hrest := ih (renewOne register v s) ch fid pt hinv2
      (fun u hu => hv u (List.mem_cons_of_mem v hu))
      (fun u hu => hg u (List.mem_cons_of_mem v hu))
    refine ⟨?_, ?_, ?_⟩
    · intro hx
      show RowLiveFields (sweepGo register vs (renewOne register v s)).2
        ch fid pt = true
      exact hrest.1 (hstep.1 hx)
    · intro hx
      show ChannelDead (sweepGo register vs (renewOne register v s)).2 ch = true
      exact hrest.2.1 (hstep.2.1 hx)
    · show chCount (sweepGo register vs (renewOne register v s)).2 ch
        = chCount s ch
      rw [hrest.2.2, hstep.2.2]

theorem RowLiveFields_hasLive (s : DbState) (ch fid : String)
    (pt : Option String) (h : RowLiveFields s ch fid pt = true) :
    hasLiveSub s fid = true := by
  rw [RowLiveFields, List.any_eq_true] at h
  obtain ⟨r, hrmem, hrp⟩ := h
  simp only [Bool.and_eq_true] at hrp
  rw [hasLiveSub, List.any_eq_true]
  refine ⟨r, hrmem, ?_⟩
  rw [Bool.and_eq_true]
  exact ⟨hrp.2.2.1, hrp.2.1⟩

theorem activeRows_len_one (s : DbState) (F : String)
    (hA : AtMostOneActivePerFolder s) (hN : (channelsOf s).Nodup)
    (hL : hasLiveSub s F = true) :
    (activeRowsFor s F).length = 1 := by
  have hsub : List.Sublist (activeRowsFor s F) s.webhooks :=
    List.filter_sublist _
  have hpw : s.webhooks.Pairwise (fun a b => a.channel_id ≠ b.channel_id) := by
    have h2 : (s.webhooks.map (fun r => r.channel_id)).Pairwise
        (fun a b => a ≠ b) := hN
    exact List.pairwise_map.mp h2
  have hpf : (activeRowsFor s F).Pairwise
      (fun a b => a.channel_id ≠ b.channel_id) := List.Pairwise.sublist hsub hpw
  rw [hasLiveSub, List.any_eq_true] at hL
  obtain ⟨r, hrmem, hrp⟩ := hL
  have hrin : r ∈ activeRowsFor s F := by
    rw [activeRowsFor, List.mem_filter]
    exact ⟨hrmem, hrp⟩
  cases hl : activeRowsFor s F with
  | nil =>
    rw [hl] at hrin
    cases hrin
  | cons a t =>
    cases t with
    | nil => rfl
    | cons b t2 =>
      rw [hl] at hpf
      have hab : a.channel_id ≠ b.channel_id :=
        (List.pairwise_cons.mp hpf).1 b (List.mem_cons_self b t2)
      have hax : a ∈ activeRowsFor s F := by
        rw [hl]
        exact List.mem_cons_self a _
      have hbx : b ∈ activeRowsFor s F := by
        rw [hl]
        exact List.mem_cons_of_mem a (List.mem_cons_self b t2)
      rw [activeRowsFor, List.mem_filter] at hax hbx
      have hap := hax.2
      have hbp := hbx.2
      simp only [Bool.and_eq_true, beq_iff_eq] at hap hbp
      have hch : a.channel_id = b.channel_id :=
        hA a hax.1 b hbx.1 hap.1 hbp.1 (hap.2.trans hbp.2.symm)
      exact absurd hch hab

theorem initial_sweepInv (register : String → Option ChannelGrant) (now : Nat)
    (st : DbState)
    (hatmost : AtMostOneActivePerFolder st)
    (hnodup : (channelsOf st).Nodup)
    (hfresh : ∀ f g', register f = some g' → ∀ r ∈ st.webhooks,
      g'.channelId ≠ r.channel_id) :
    SweepInv register (expiringList st now) st := by
  refine ⟨hatmost, hnodup, ?_, ?_, ?_⟩
  · intro w hw
    rw [expiringList, List.mem_filter] at hw
    have hw2 := hw.1
    rw [get_all_active_webhooks, List.mem_filter] at hw2
    exact ⟨w, hw2.1, rfl, hw2.2, rfl⟩
  · intro w _ g' hg' r hr
    exact hfresh w.folder_id g' hg' r hr
  · have hpw : st.webhooks.Pairwise (fun a b => a.channel_id ≠ b.channel_id) := by
      have h2 : (st.webhooks.map (fun r => r.channel_id)).Pairwise
          (fun a b => a ≠ b) := hnodup
      exact List.pairwise_map.mp h2
    have hsub : List.Sublist (expiringList st now) st.webhooks := by
      rw [expiringList, get_all_active_webhooks]
      exact List.Sublist.trans (List.filter_sublist _) (List.filter_sublist _)
    have hpE : (expiringList st now).Pairwise
        (fun a b => a.channel_id ≠ b.channel_id) :=
      List.Pairwise.sublist hsub hpw
    have hq : (expiringList st now).Pairwise
        (fun a b => a.folder_id ≠ b.folder_id) := by
      refine List.Pairwise.imp_of_mem ?_ hpE
      intro a b ha hb hch hfeq
      rw [expiringList, List.mem_filter] at ha hb
      have ha2 := ha.1
      have hb2 := hb.1
      rw [get_all_active_webhooks, List.mem_filter] at ha2 hb2
      exact hch (hatmost a ha2.1 b hb2.1 ha2.2 hb2.2 hfeq)
    show ((expiringList st now).map (fun w => w.folder_id)).Pairwise
      (fun a b => a ≠ b)
    exact List.pairwise_map.mpr hq

theorem sweepGo_cons_snd (register : String → Option ChannelGrant)
    (x : WebhookRow) (xs : List WebhookRow) (s : DbState) :
    (sweepGo register (x :: xs) s).2
      = (sweepGo register xs (renewOne register x s)).2 := rfl

/-- C3 counterexample: starting from a database holding the single active
subscription `chOld` on folder `F` that expires within the renewal window,
the sweep passes through a reachable state (after `save_webhook` persisted
the fresh channel, before `deactivate_webhook` retired the old one) in which
folder `F` has two `active = TRUE` rows at once, contradicting the claimed
at-most-one-active-row-per-folder at every reachable state. -/
theorem claim3_counterexample_transient_double_active :
    (renewSweepStates cRegister 0 cStRenew).any
      (fun s => decide (2 ≤ (activeRowsFor s "F").length)) = true := by
  rfl

/-- **C3.** Amended renewal-subscription liveness (the sweep and its upsert
are modelled from spec section 4.2, backed by `Database.save_webhook`,
database.py lines 1150-1175, and `Database.deactivate_webhook`, lines
1215-1229).  For a due subscription `w` whose re-registration grants the
fresh channel `g`, the completed sweep leaves: a live row for channel
`g.channelId` on `w`'s folder reusing `w`'s cursor; exactly one row of that
channel; every row of the superseded channel `w.channel_id` inactive;
exactly one `active = TRUE` row for `w`'s folder; at most one active row
per folder in the final state; and every folder that was live when the
sweep started stays live at every reachable intermediate state.  (The
claim's an-every-reachable-state bound is amended: between persisting the
new row and deactivating the old one a folder transiently holds two active
rows — see the counterexample.) -/
theorem claim3_amended_renewal_sweep
    (register : String → Option ChannelGrant) (now : Nat) (st : DbState)
    (w : WebhookRow) (g : ChannelGrant) (l1 l2 : List WebhookRow)
    (hsplit : expiringList st now = l1 ++ w :: l2)
    (hreg : register w.folder_id = some g)
    (hatmost : AtMostOneActivePerFolder st)
    (hnodup : (channelsOf st).Nodup)
    (hfresh : ∀ f g', register f = some g' → ∀ r ∈ st.webhooks,
      g'.channelId ≠ r.channel_id)
    (hinj : ∀ f1 f2 g1 g2, register f1 = some g1 → register f2 = some g2 →
      g1.channelId = g2.channelId → f1 = f2) :
    RowLiveFields (renewExpiring register now st) g.channelId w.folder_id
      w.page_token = true ∧
    chCount (renewExpiring register now st) g.channelId = 1 ∧
    ChannelDead (renewExpiring register now st) w.channel_id = true ∧
    (activeRowsFor (renewExpiring register now st) w.folder_id).length = 1 ∧
    AtMostOneActivePerFolder (renewExpiring register now st) ∧
    (∀ F, hasLiveSub st F = true →
      ∀ x ∈ renewSweepStates register now st, hasLiveSub x F = true) := by
  have inv0 : SweepInv register (expiringList st now) st :=
    initial_sweepInv register now st hatmost hnodup hfresh
  have invL : SweepInv register (l1 ++ w :: l2) st := hsplit ▸ inv0
  have invW : SweepInv register (w :: l2) (sweepGo register l1 st).2 :=
    sweepGo_suffix_inv register hinj l1 (w :: l2) st invL
  have base := renewOne_establish register w l2 (sweepGo register l1 st).2 g
    invW hreg
  have invA : SweepInv register l2
      (renewOne register w (sweepGo register l1 st).2) :=
    sweepInv_step register hinj w l2 (sweepGo register l1 st).2 invW
  have hfin : renewExpiring register now st
      = (sweepGo register l2
          (renewOne register w (sweepGo register l1 st).2)).2 := by
    rw [renewExpiring, hsplit, sweepGo_append_snd]
    exact sweepGo_cons_snd register w l2 _
  obtain ⟨rold, hrwmem, hrwch, hrwact, hrwfld⟩ :=
    invW.liveRow w (List.mem_cons_self w l2)
  have hndW := invW.foldersNodup
  rw [List.map_cons, List.nodup_cons] at hndW
  have hvch1 : ∀ v ∈ l2, v.channel_id ≠ g.channelId := by
    intro v hv
    obtain ⟨rv2, hrv2mem, hrv2ch, h1, h2⟩ :=
      invW.liveRow v (List.mem_cons_of_mem w hv)
    have h := invW.fresh w (List.mem_cons_self w l2) g hreg rv2 hrv2mem
    rw [hrv2ch] at h
    exact fun he => h he.symm
  have hgch1 : ∀ v ∈ l2, ∀ g', register v.folder_id = some g' →
      g'.channelId ≠ g.channelId := by
    intro v hv g' hg' he
    have hf : v.folder_id = w.folder_id :=
      hinj v.folder_id w.folder_id g' g hg' hreg he
    exact hndW.1 (by rw [← hf]; exact List.mem_map_of_mem _ hv)
  have pres1 := sweepGo_preserve register hinj l2
    (renewOne register w (sweepGo register l1 st).2) g.channelId w.folder_id
    w.page_token invA hvch1 hgch1
  have hvch2 : ∀ v ∈ l2, v.channel_id ≠ w.channel_id := by
    intro v hv he
    obtain ⟨rv2, hrv2mem, hrv2ch, h1, hrv2fld⟩ :=
      invW.liveRow v (List.mem_cons_of_mem w hv)
    have heq : rv2 = rold := by
      refine channel_injOn _ invW.nodupCh rv2 hrv2mem rold hrwmem ?_
      rw [hrv2ch, he, hrwch]
    have hf : v.folder_id = w.folder_id := by
      rw [← hrv2fld, heq, hrwfld]
    exact hndW.1 (by rw [← hf]; exact List.mem_map_of_mem _ hv)
  have hgch2 : ∀ v ∈ l2, ∀ g', register v.folder_id = some g' →
      g'.channelId ≠ w.channel_id := by
    intro v hv g' hg'
    have h := invW.fresh v (List.mem_cons_of_mem w hv) g' hg' rold hrwmem
    rw [hrwch] at h
    exact h
  have pres2 := sweepGo_preserve register hinj l2
    (renewOne register w (sweepGo register l1 st).2) w.channel_id w.folder_id
    w.page_token invA hvch2 hgch2
  have invFin : SweepInv register [] (renewExpiring register now st) := by
    rw [renewExpiring]
    exact sweepGo_inv register hinj (expiringList st now) st inv0
  refine ⟨?_, ?_, ?_, ?_, invFin.atMost, ?_⟩
  · rw [hfin]
    exact pres1.1 base.1
  · rw [hfin, pres1.2.2]
    exact base.2.2
  · rw [hfin]
    exact pres2.2.1 base.2.1
  · have hlive : hasLiveSub (renewExpiring register now st) w.folder_id = true := by
      rw [hfin]
      exact RowLiveFields_hasLive _ _ _ _ (pres1.1 base.1)
    exact activeRows_len_one _ _ invFin.atMost invFin.nodupCh hlive
  · intro F hF x hx
    rw [renewSweepStates] at hx
    rcases List.mem_cons.mp hx with rfl | hx2
    · exact hF
    · exact (sweepGo_live_all register hinj (expiringList st now) st F inv0
        hF).2 x hx2

/-- C3 witness: the expiring `chOld` subscription on folder `F` is renewed
by the grant `chNew`; after the sweep the fresh channel is live with the
reused cursor, the old channel is fully inactive, folder `F` has exactly
one active row, and `F` stays live at every state the sweep passes
through. -/
theorem claim3_witness :
    RowLiveFields (renewExpiring cRegister 0 cStRenew) cGrant.channelId
      cWhExpiring.folder_id cWhExpiring.page_token = true ∧
    chCount (renewExpiring cRegister 0 cStRenew) cGrant.channelId = 1 ∧
    ChannelDead (renewExpiring cRegister 0 cStRenew)
      cWhExpiring.channel_id = true ∧
    (activeRowsFor (renewExpiring cRegister 0 cStRenew)
      cWhExpiring.folder_id).length = 1 ∧
    AtMostOneActivePerFolder (renewExpiring cRegister 0 cStRenew) ∧
    (∀ F, hasLiveSub cStRenew F = true →
      ∀ x ∈ renewSweepStates cRegister 0 cStRenew, hasLiveSub x F = true) :=
  claim3_amended_renewal_sweep cRegister 0 cStRenew cWhExpiring cGrant [] []
    rfl rfl
    (by
      intro r1 h1 r2 h2 a1 a2 hf
      have e1 : r1 = cWhExpiring := by simpa [cStRenew] using h1
      have e2 : r2 = cWhExpiring := by simpa [cStRenew] using h2
      rw [e1, e2])
    (by decide)
    (by
      intro f g' hfg r hr
      simp only [cRegister] at hfg
      by_cases hf : (f == "F") = true
      · rw [if_pos hf] at hfg
        injection hfg with hg'
        subst hg'
        have hr2 : r = cWhExpiring := by simpa [cStRenew] using hr
        subst hr2
        decide
      · rw [if_neg hf] at hfg
        cases hfg)
    (by
      intro f1 f2 g1 g2 h1 h2 hch
      simp only [cRegister] at h1 h2
      by_cases hf1 : (f1 == "F") = true
      · by_cases hf2 : (f2 == "F") = true
        · have e1 : f1 = "F" := by simpa using hf1
          have e2 : f2 = "F" := by simpa using hf2
          rw [e1, e2]
        · rw [if_neg hf2] at h2
          cases h2
      · rw [if_neg hf1] at h1
        cases h1)
